import Mathlib

/-
  A verification development for the falling-words typing game in script.js.

  The game's mutable singleton `Game`, its entity classes and its per-frame
  `logic` pass are shallowly embedded as pure functions over an explicit
  state record `GState`.  JS numbers are modelled as rationals; machine
  floating point is not modelled.  JS object references into the enemy
  collection (the lock, projectile targets) are modelled as indices into an
  append-only `heap` list, so that a reference survives removal from the
  `enemies` collection exactly as a JS reference would.

  Randomness (word choice, spawn position and speed, particle and debris
  velocities) is supplied by explicit oracle arguments.  The only pieces of
  the source not translated literally are the transcendental float
  computations (`Math.atan2`/`cos`/`sin`/`hypot`) in `Player.update` and in
  the projectile homing step; these affect only the ship's drawing angle and
  the projectile trajectory, which no verified claim depends on, and they
  are abstracted as the `Kern` parameter below.
-/

namespace Neon

/-- Audio cues emitted through the fire-and-forget sound capability
(`sfxShoot`, `sfxLock`, `sfxError`, `sfxReward`, `sfxWarExplosion`). -/
inductive Cue where
  | shoot
  | lock
  | error
  | reward
  | explosion
  deriving DecidableEq, Repr

/-- The difficulty selected on the start screen (`Game.currentDifficulty`). -/
inductive Diff where
  | easy
  | medium
  | hard
  deriving DecidableEq, Repr

/-- `WORDS_EASY` from script.js. -/
def WORDS_EASY : List String :=
  ["VOID", "CORE", "NEON", "GLOW", "FLUX", "GRID", "DATA", "CODE",
   "HACK", "BIOS", "LINK", "NODE", "SYNC", "WAVE", "BEAM", "NULL",
   "ZERO", "BYTE", "MEGA", "GIGA", "TERA", "WARP", "STAR", "MOON",
   "GATE", "LOCK", "KEY", "PATH", "ROOT", "BOOT", "LOAD", "SAVE"]

/-- `WORDS_MEDIUM` from script.js. -/
def WORDS_MEDIUM : List String :=
  ["SYSTEM", "MATRIX", "VECTOR", "PIXEL", "SPRITE", "RENDER", "SHADER",
   "BUFFER", "MEMORY", "KERNEL", "SERVER", "CLIENT", "SOCKET", "PACKET",
   "ROUTER", "SWITCH", "ACCESS", "DENIED", "UPLINK", "TROJAN", "BINARY",
   "DRIVER", "LATENCY", "BANDWIDTH", "PROTOCOL", "NETWORK", "VIRTUAL",
   "DIGITAL", "ANALOG", "CIRCUIT", "SILICON", "OPTICAL", "QUANTUM"]

/-- `WORDS_HARD` from script.js. -/
def WORDS_HARD : List String :=
  ["ALGORITHM", "ENCRYPTION", "FIREWALL", "PROCESSOR", "INTERFACE",
   "COMPILER", "DEBUGGER", "DATABASE", "MAINFRAME", "CYBERPUNK",
   "ASSEMBLY", "INTERRUPT", "REGISTRY", "ETHERNET", "KERNELPANIC",
   "OVERCLOCK", "BLUEPRINT", "CRYPTOGRAPHY", "HEURISTIC", "ITERATION",
   "RECURSION", "TELEMETRY", "SUBROUTINE", "THROUGHPUT", "BLOCKCHAIN"]

/-- The word list used by `spawnEnemy` for a given difficulty. -/
def wordListFor : Diff → List String
  | Diff.easy => WORDS_EASY
  | Diff.medium => WORDS_MEDIUM
  | Diff.hard => WORDS_HARD

/-- The `Enemy` class.  `id` is the index of this object in the `heap` of
`GState` (JS object identity); the render-only `color` strings are omitted. -/
structure Enemy where
  id : ℕ
  word : String
  matchedIndex : ℕ
  x : ℚ
  y : ℚ
  speed : ℚ
  isLocked : Bool
  markedForDeletion : Bool
  rotation : ℚ
  pulse : ℚ
  deriving DecidableEq, Repr

/-- `Enemy.update(difficultyMultiplier)`: advance by `speed * multiplier`,
spin, pulse; past the bottom of the viewport, mark for deletion and report
`damage` (the returned Bool). -/
def Enemy.update (hgt mult : ℚ) (e : Enemy) : Enemy × Bool :=
  let y2 := e.y + e.speed * mult
  let e2 := { e with y := y2, rotation := e.rotation + 1/50, pulse := e.pulse + 1/10 }
  if hgt < y2 then ({ e2 with markedForDeletion := true }, true) else (e2, false)

/-- The `Projectile` class.  `target` is a heap index (JS object reference);
the constant `speed = 20` is folded into the abstract motion kernel. -/
structure Projectile where
  x : ℚ
  y : ℚ
  target : ℕ
  active : Bool
  trail : List (ℚ × ℚ)
  deriving DecidableEq, Repr

/-- Particle variant tag. -/
inductive PType where
  | spark
  | fire
  | smoke
  deriving DecidableEq, Repr

/-- The `Particle` class (colors, which are render-only strings, omitted). -/
structure Particle where
  x : ℚ
  y : ℚ
  ptype : PType
  vx : ℚ
  vy : ℚ
  life : ℚ
  decay : ℚ
  size : ℚ
  deriving DecidableEq, Repr

/-- The `Particle` constructor.  `vx`/`vy` are supplied by the caller's
randomness oracle (the source draws a random angle and magnitude and takes
`cos`/`sin`); `rd`/`rs` are the raw uniform randoms in `[0,1)` feeding the
decay and size formulas of each variant. -/
def Particle.make (x y : ℚ) (t : PType) (vx vy rd rs : ℚ) : Particle :=
  match t with
  | PType.spark =>
    { x := x, y := y, ptype := t, vx := vx, vy := vy, life := 1,
      decay := rd * (1/20) + 1/50, size := rs * 3 + 1 }
  | PType.fire =>
    { x := x, y := y, ptype := t, vx := vx, vy := vy, life := 1,
      decay := rd * (1/25) + 1/100, size := rs * 20 + 10 }
  | PType.smoke =>
    { x := x, y := y, ptype := t, vx := vx, vy := vy, life := 1,
      decay := 1/50, size := rs * 30 + 10 }

/-- `Particle.update()`: integrate velocity, burn life; sparks damp at 0.9,
the other variants damp at 0.95 and grow. -/
def Particle.update (p : Particle) : Particle :=
  let p := { p with x := p.x + p.vx, y := p.y + p.vy, life := p.life - p.decay }
  match p.ptype with
  | PType.spark => { p with vx := p.vx * (9/10), vy := p.vy * (9/10) }
  | _ => { p with size := p.size + 1/2, vx := p.vx * (19/20), vy := p.vy * (19/20) }

/-- The `Shockwave` class. -/
structure Shockwave where
  x : ℚ
  y : ℚ
  radius : ℚ
  maxRadius : ℚ
  alpha : ℚ
  speed : ℚ
  deriving DecidableEq, Repr

/-- `new Shockwave(x, y)`. -/
def Shockwave.make (x y : ℚ) : Shockwave :=
  { x := x, y := y, radius := 1, maxRadius := 80, alpha := 1, speed := 5 }

/-- `Shockwave.update()`. -/
def Shockwave.update (w : Shockwave) : Shockwave :=
  { w with radius := w.radius + w.speed, alpha := w.alpha - 1/20 }

/-- One debris character of a `TextExplosion`. -/
structure TChar where
  ch : Char
  x : ℚ
  y : ℚ
  vx : ℚ
  vy : ℚ
  rotation : ℚ
  vRot : ℚ
  alpha : ℚ
  scl : ℚ
  deriving DecidableEq, Repr

/-- The `TextExplosion` class: per-character debris seeded from the word. -/
structure TextExplosion where
  parts : List TChar
  deriving DecidableEq, Repr

/-- `new TextExplosion(x, y, text)`; `tr i` supplies the three uniform
randoms in `[0,1)` used for character `i`'s velocity and spin. -/
def TextExplosion.make (x y : ℚ) (text : String) (tr : ℕ → ℚ × ℚ × ℚ) : TextExplosion :=
  let chars := text.data
  let totalW : ℚ := 12 * chars.length
  { parts := chars.enum.map (fun p =>
      let r := tr p.1
      { ch := p.2, x := x + ((p.1 : ℚ) * 14 - totalW / 2), y := y,
        vx := (r.1 - 1/2) * 4, vy := (r.2.1 - 1/2) * 4 - 2,
        rotation := 0, vRot := (r.2.2 - 1/2) * (1/5), alpha := 1, scl := 1 }) }

/-- `TextExplosion.update()`. -/
def TextExplosion.update (t : TextExplosion) : TextExplosion :=
  { parts := t.parts.map (fun p =>
      { p with x := p.x + p.vx, y := p.y + p.vy, rotation := p.rotation + p.vRot,
               alpha := p.alpha - 1/50, scl := p.scl + 1/50 }) }

/-- `TextExplosion.isDead()`: every debris character has faded out. -/
def TextExplosion.dead (t : TextExplosion) : Bool :=
  t.parts.all (fun p => decide (p.alpha ≤ 0))

/-- The `SpriteExplosion` class (frame-animated sprite sheet). -/
structure SpriteExplosion where
  x : ℚ
  y : ℚ
  frame : ℕ
  totalFrames : ℕ
  frameSpeed : ℚ
  currentFrame : ℚ
  active : Bool
  deriving DecidableEq, Repr

/-- `new SpriteExplosion(x, y)`. -/
def SpriteExplosion.make (x y : ℚ) : SpriteExplosion :=
  { x := x, y := y, frame := 0, totalFrames := 12, frameSpeed := 1/2,
    currentFrame := 0, active := true }

/-- `SpriteExplosion.update()`: advance the fractional frame counter, floor
it, and finish once the last frame is passed. -/
def SpriteExplosion.update (sp : SpriteExplosion) : SpriteExplosion :=
  let cf := sp.currentFrame + sp.frameSpeed
  let fr := (Int.toNat ⌊cf⌋)
  let sp := { sp with currentFrame := cf, frame := fr }
  if sp.totalFrames ≤ fr then { sp with active := false } else sp

/-- The three transient effect variants stored in `Game.effects`. -/
inductive Effect where
  | shock (w : Shockwave)
  | text (t : TextExplosion)
  | sprite (sp : SpriteExplosion)
  deriving DecidableEq, Repr

/-- Dispatch `e.update()` over the effect variants. -/
def Effect.update : Effect → Effect
  | Effect.shock w => Effect.shock w.update
  | Effect.text t => Effect.text t.update
  | Effect.sprite sp => Effect.sprite sp.update

/-- The pruning test in `Game.logic`:
`(e.alpha !== undefined && e.alpha <= 0) || (e.isDead && e.isDead())`.
Only `Shockwave` has an `alpha` field and only the other two have `isDead`. -/
def Effect.terminal : Effect → Bool
  | Effect.shock w => decide (w.alpha ≤ 0)
  | Effect.text t => t.dead
  | Effect.sprite sp => !sp.active

/-- The `Player` class (position and facing angles; drawing omitted). -/
structure Player where
  x : ℚ
  y : ℚ
  angle : ℚ
  targetAngle : ℚ
  deriving DecidableEq, Repr

/-- `Game.stats`. -/
structure Stats where
  keysTyped : ℕ
  keysHit : ℕ
  currentStreak : ℕ
  maxStreak : ℕ
  scoreHistory : List ℕ
  deriving DecidableEq, Repr

/-- Abstract kernels for the transcendental float computations of the
source, which no verified claim depends on:
`playerUpd` stands for the `atan2`-based angle-easing body of
`Player.update(targetX, targetY)` and returns the new
`(angle, targetAngle)`; `projMove` stands for one projectile step
`(x + cos(atan2)·20, y + sin(atan2)·20)` toward the target; `projHit`
stands for `Math.hypot(x - tx, y - ty) < 30`. -/
structure Kern where
  playerUpd : ℚ → ℚ → ℚ → ℚ → Option (ℚ × ℚ) → ℚ × ℚ
  projMove : ℚ → ℚ → ℚ → ℚ → ℚ × ℚ
  projHit : ℚ → ℚ → ℚ → ℚ → Bool

/-- The raw uniform randoms consumed by one `spawnEnemy` call: the word
index `Math.floor(Math.random() * list.length)` and the unit randoms for
the x position and descent speed of the `Enemy` constructor. -/
structure SpawnSeed where
  wi : ℕ
  xR : ℚ
  speedR : ℚ

/-- The randomness consumed by one `destroyEnemy` call: per-index raw
randoms for the 20 spark / 10 fire / 15 smoke particles (velocity pair,
decay random, size random) and the per-character debris randoms of the
`TextExplosion`. -/
structure DestroyRnd where
  spark : ℕ → ℚ × ℚ × ℚ × ℚ
  fire : ℕ → ℚ × ℚ × ℚ × ℚ
  smoke : ℕ → ℚ × ℚ × ℚ
  textR : ℕ → ℚ × ℚ × ℚ

/-- The full mutable state of the `Game` singleton (plus the module-level
`width`/`height` viewport globals).  `heap` is the append-only store of all
`Enemy` objects ever constructed; `enemies` holds the heap indices
currently in the `Game.enemies` array; `lockedTarget` and projectile
targets are heap indices.  `cues` is the log of emitted audio cues. -/
structure GState where
  width : ℚ
  height : ℚ
  active : Bool
  paused : Bool
  currentDifficulty : Diff
  score : ℕ
  health : ℤ
  wave : ℕ
  spawnTimer : ℕ
  shakeTimer : ℕ
  shakeIntensity : ℕ
  lockedTarget : Option ℕ
  highScore : ℕ
  milestone : ℕ
  lastScore : ℕ
  stats : Stats
  player : Player
  heap : List Enemy
  enemies : List ℕ
  projectiles : List Projectile
  particles : List Particle
  effects : List Effect
  cues : List Cue
  deriving DecidableEq, Repr

/-- Append one audio cue to the log (a `playTone`/noise call in the source). -/
def emit (c : Cue) (s : GState) : GState :=
  { s with cues := s.cues ++ [c] }

/-- The state at module load: `width`/`height` from the viewport, the high
score from `loadHighScore()`, everything else as in the `Game` object
literal. -/
def initState (w h : ℚ) (hs0 : ℕ) : GState :=
  { width := w, height := h, active := false, paused := false,
    currentDifficulty := Diff.easy, score := 0, health := 100, wave := 1,
    spawnTimer := 0, shakeTimer := 0, shakeIntensity := 0,
    lockedTarget := none, highScore := hs0, milestone := 500, lastScore := 0,
    stats := { keysTyped := 0, keysHit := 0, currentStreak := 0,
               maxStreak := 0, scoreHistory := [] },
    player := { x := w / 2, y := h - 100, angle := 0, targetAngle := 0 },
    heap := [], enemies := [], projectiles := [], particles := [],
    effects := [], cues := [] }

namespace Game

/-- `Game.gameOver()`: deactivate; persist and celebrate a new high score.
(The summary DOM writes and graph are external collaborators.) -/
def gameOver (s : GState) : GState :=
  let s := { s with active := false }
  if s.highScore < s.score then emit Cue.reward { s with highScore := s.score }
  else s

/-- `Game.takeDamage(amount)`: subtract, clamp at 0, play the glitch cue,
and end the game at 0 health. -/
def takeDamage (amount : ℤ) (s : GState) : GState :=
  let h1 := s.health - amount
  let h2 := if h1 < 0 then 0 else h1
  let s := emit Cue.error { s with health := h2 }
  if h2 ≤ 0 then gameOver s else s

/-- `Game.shoot(target)`: push a projectile from the player at the target
and play the shoot cue. -/
def shoot (tid : ℕ) (s : GState) : GState :=
  emit Cue.shoot
    { s with projectiles := s.projectiles ++
        [{ x := s.player.x, y := s.player.y, target := tid, active := true, trail := [] }] }

/-- The spark/fire/smoke particle quota pushed by `destroyEnemy` at the
destroyed enemy's position, fed by the randomness oracle. -/
def burst (rnd : DestroyRnd) (x y : ℚ) : List Particle :=
  ((List.range 20).map (fun i =>
      let r := rnd.spark i
      Particle.make x y PType.spark r.1 r.2.1 r.2.2.1 r.2.2.2)) ++
  ((List.range 10).map (fun i =>
      let r := rnd.fire i
      Particle.make x y PType.fire r.1 r.2.1 r.2.2.1 r.2.2.2)) ++
  ((List.range 15).map (fun i =>
      let r := rnd.smoke i
      Particle.make x y PType.smoke r.1 r.2.1 0 r.2.2))

/-- `Game.destroyEnemy(enemy)`: mark for deletion, score
`word.length * 10`, spawn the particle burst and the three destruction
effects, set the screen shake, play the explosion, and award the milestone
bonus (reward cue, next threshold, heal capped at 100) when the score has
reached the current milestone. -/
def destroyEnemy (rnd : DestroyRnd) (tid : ℕ) (s : GState) : GState :=
  match s.heap[tid]? with
  | none => s
  | some e =>
    let s := { s with heap := s.heap.set tid { e with markedForDeletion := true },
                      score := s.score + e.word.length * 10 }
    let s := { s with particles := s.particles ++ burst rnd e.x e.y }
    let s := { s with effects := s.effects ++
        [Effect.shock (Shockwave.make e.x e.y),
         Effect.text (TextExplosion.make e.x e.y e.word rnd.textR),
         Effect.sprite (SpriteExplosion.make e.x e.y)] }
    let s := { s with shakeTimer := 15, shakeIntensity := 10 }
    let s := emit Cue.explosion s
    if s.milestone ≤ s.score then
      let s := emit Cue.reward s
      { s with milestone := s.milestone + 500,
               health := min 100 (s.health + 20) }
    else s

/-- The candidate pool scanned by `handleInput` when no target is locked:
`this.enemies.filter(e => e.word.startsWith(char) && e.y > 0)`. -/
def candidates (heap : List Enemy) (ens : List ℕ) (c : Char) : List ℕ :=
  ens.filter (fun id =>
    match heap[id]? with
    | some e => (e.word.data.head? == some c) && decide ((0 : ℚ) < e.y)
    | none => false)

/-- The y coordinate of a heap entry (0 for a missing index). -/
def yAt (heap : List Enemy) (id : ℕ) : ℚ :=
  match heap[id]? with
  | some e => e.y
  | none => 0

/-- The first element of the candidate pool after the stable descending
sort `compatible.sort((a, b) => b.y - a.y)`: the earliest candidate with
maximal y. -/
def pickTarget (heap : List Enemy) (c0 : ℕ) (rest : List ℕ) : ℕ :=
  rest.foldl (fun best id => if yAt heap best < yAt heap id then id else best) c0

/-- `Game.handleInput(char)` — the Combat Resolver.  Ignored unless active
and unpaused; counts the keystroke; then either advances/destroys the
locked target on a match (resetting the streak on a mismatch), or scans the
candidate pool, locking the deepest candidate or resetting the streak. -/
def handleInput (rnd : DestroyRnd) (c : Char) (s : GState) : GState :=
  if !s.active || s.paused then s
  else
    let s := { s with stats := { s.stats with keysTyped := s.stats.keysTyped + 1 } }
    match s.lockedTarget with
    | some tid =>
      match s.heap[tid]? with
      | none => s
      | some e =>
        let s1 :=
          if e.word.data[e.matchedIndex]? = some c then
            let st := s.stats
            let st := { st with keysHit := st.keysHit + 1,
                                currentStreak := st.currentStreak + 1 }
            let st := if st.maxStreak < st.currentStreak
                      then { st with maxStreak := st.currentStreak } else st
            shoot tid { s with stats := st,
                               heap := s.heap.set tid { e with matchedIndex := e.matchedIndex + 1 } }
          else
            emit Cue.error { s with stats := { s.stats with currentStreak := 0 } }
        match s1.lockedTarget with
        | some tid2 =>
          match s1.heap[tid2]? with
          | some e2 =>
            if e2.word.length ≤ e2.matchedIndex then
              { destroyEnemy rnd tid2 s1 with lockedTarget := none }
            else s1
          | none => s1
        | none => s1
    | none =>
      match candidates s.heap s.enemies c with
      | [] => emit Cue.error { s with stats := { s.stats with currentStreak := 0 } }
      | c0 :: rest =>
        let tid := pickTarget s.heap c0 rest
        let st := s.stats
        let st := { st with keysHit := st.keysHit + 1,
                            currentStreak := st.currentStreak + 1 }
        let st := if st.maxStreak < st.currentStreak
                  then { st with maxStreak := st.currentStreak } else st
        let s := { s with stats := st }
        match s.heap[tid]? with
        | none => s
        | some e =>
          let s := { s with
            lockedTarget := some tid,
            heap := s.heap.set tid { e with isLocked := true,
                                            matchedIndex := e.matchedIndex + 1 } }
          shoot tid (emit Cue.lock s)

/-- `Game.spawnEnemy()`: push a fresh enemy with a word drawn from the
active difficulty's list and the `Enemy` constructor's random x in
`[100, width - 100)`, y = -100, speed in `[0.5, 1.3)`. -/
def spawnEnemy (seed : SpawnSeed) (s : GState) : GState :=
  let list := wordListFor s.currentDifficulty
  let word := list.getD (seed.wi % list.length) ""
  let e : Enemy :=
    { id := s.heap.length, word := word, matchedIndex := 0,
      x := seed.xR * (s.width - 200) + 100, y := -100,
      speed := seed.speedR * (4/5) + 1/2,
      isLocked := false, markedForDeletion := false, rotation := 0, pulse := 0 }
  { s with heap := s.heap ++ [e], enemies := s.enemies ++ [e.id] }

/-- `Game.start()`: reset score, health, wave, spawn timer, all entity
collections, the lock, pause, the stats block (history restarted at
`[0]`), the milestone tracking — leaving the high score, the chosen
difficulty and the viewport untouched — and activate. -/
def start (s : GState) : GState :=
  { s with active := true, score := 0, health := 100, wave := 1,
           spawnTimer := 0, enemies := [], projectiles := [], particles := [],
           effects := [], lockedTarget := none, paused := false,
           stats := { keysTyped := 0, keysHit := 0, currentStreak := 0,
                      maxStreak := 0, scoreHistory := [0] },
           lastScore := 0, milestone := 500 }

/-- `Game.togglePause()`: a no-op unless active; otherwise flip the paused
flag (the pause overlay is an external collaborator). -/
def togglePause (s : GState) : GState :=
  if !s.active then s else { s with paused := !s.paused }

/-- The spawn block at the top of `Game.logic`: bump the spawn timer and,
past `max(60, 120 - wave*5)` frames, spawn one enemy and reset it. -/
def spawnPhase (seed : SpawnSeed) (s : GState) : GState :=
  let rate : ℤ := max 60 (120 - (s.wave : ℤ) * 5)
  let s := { s with spawnTimer := s.spawnTimer + 1 }
  if rate < (s.spawnTimer : ℤ) then { spawnEnemy seed s with spawnTimer := 0 }
  else s

/-- The wave-grouping block of `Game.logic`: advance the wave while
`floor(score/500) + 1` exceeds it, recording a score-history point. -/
def wavePhase (s : GState) : GState :=
  if s.wave < s.score / 500 + 1 then
    { s with wave := s.wave + 1,
             stats := { s.stats with scoreHistory := s.stats.scoreHistory ++ [s.score] } }
  else s

/-- The player-update block of `Game.logic`: aim at a live locked target
(or relax); the angle easing itself is the abstract kernel. -/
def playerPhase (k : Kern) (s : GState) : GState :=
  let tPos : Option (ℚ × ℚ) :=
    match s.lockedTarget with
    | some tid =>
      match s.heap[tid]? with
      | some e => if e.markedForDeletion then none else some (e.x, e.y)
      | none => none
    | none => none
  let a := k.playerUpd s.player.x s.player.y s.player.angle s.player.targetAngle tPos
  { s with player := { s.player with angle := a.1, targetAngle := a.2 } }

/-- One iteration of the enemies `forEach` in `Game.logic`: run
`e.update(1 + wave*0.1)` in place; on a reported miss apply 20 damage and
clear the lock if this enemy held it. -/
def enemyStep (hgt mult : ℚ) (s : GState) (tid : ℕ) : GState :=
  match s.heap[tid]? with
  | none => s
  | some e =>
    let r := Enemy.update hgt mult e
    let s := { s with heap := s.heap.set tid r.1 }
    if r.2 then
      let s := takeDamage 20 s
      if s.lockedTarget = some tid then { s with lockedTarget := none } else s
    else s

/-- The enemies `forEach` of `Game.logic` over a snapshot of the id list. -/
def enemyFold (hgt mult : ℚ) (l : List ℕ) (s : GState) : GState :=
  l.foldl (enemyStep hgt mult) s

/-- The whole enemy-update block of `Game.logic`. -/
def enemyPhase (s : GState) : GState :=
  enemyFold s.height (1 + (s.wave : ℚ) * (1/10)) s.enemies s

/-- `Projectile.update()`: deactivate if the target is gone or marked for
deletion; otherwise take one kernel step toward it, push the bounded trail
(length 8, oldest shifted out), and deactivate within the hit distance. -/
def projectileUpd (k : Kern) (heap : List Enemy) (p : Projectile) : Projectile :=
  match heap[p.target]? with
  | none => { p with active := false }
  | some t =>
    if t.markedForDeletion then { p with active := false }
    else
      let m := k.projMove p.x p.y t.x t.y
      let tr := p.trail ++ [(m.1, m.2)]
      let tr := if 8 < tr.length then tr.tail else tr
      let p := { p with x := m.1, y := m.2, trail := tr }
      if k.projHit m.1 m.2 t.x t.y then { p with active := false } else p

/-- The projectiles `forEach` of `Game.logic` (the returned hit signal is
ignored there). -/
def projPhase (k : Kern) (s : GState) : GState :=
  { s with projectiles := s.projectiles.map (projectileUpd k s.heap) }

/-- The particles `forEach` of `Game.logic`. -/
def particlePhase (s : GState) : GState :=
  { s with particles := s.particles.map Particle.update }

/-- The effects `forEach` of `Game.logic`, which splices terminal effects
out of the array *during* iteration: JS `forEach` captures the initial
length, checks each index against the current array, and therefore skips
the element shifted into a spliced slot. -/
def effectsPass : ℕ → ℕ → List Effect → List Effect
  | 0, _, es => es
  | fuel + 1, i, es =>
    match es[i]? with
    | none => effectsPass fuel (i + 1) es
    | some e =>
      let e2 := e.update
      let es := es.set i e2
      if e2.terminal then effectsPass fuel (i + 1) (es.eraseIdx i)
      else effectsPass fuel (i + 1) es

/-- The effects block of `Game.logic`. -/
def effectPhase (s : GState) : GState :=
  { s with effects := effectsPass s.effects.length 0 s.effects }

/-- The screen-shake block of `Game.logic`. -/
def shakePhase (s : GState) : GState :=
  if 0 < s.shakeTimer then { s with shakeTimer := s.shakeTimer - 1 }
  else { s with shakeIntensity := 0 }

/-- The cleanup block of `Game.logic`: drop marked enemies, inactive
projectiles and expired particles. -/
def cleanupPhase (s : GState) : GState :=
  { s with
    enemies := s.enemies.filter (fun id =>
      match s.heap[id]? with
      | some e => !e.markedForDeletion
      | none => false),
    projectiles := s.projectiles.filter (fun p => p.active),
    particles := s.particles.filter (fun p => decide (0 < p.life)) }

/-- `Game.logic()`: one simulation tick — spawning, wave grouping, player,
enemies (with miss damage), projectiles, particles, effects, shake decay,
cleanup.  `seed` supplies the randomness of an enemy spawn this tick. -/
def logic (k : Kern) (seed : SpawnSeed) (s : GState) : GState :=
  cleanupPhase (shakePhase (effectPhase (particlePhase (projPhase k
    (enemyPhase (playerPhase k (wavePhase (spawnPhase seed s))))))))

end Game

/-- One externally triggered event: a keystroke (with the randomness a
destruction would consume), one frame tick (with the spawn randomness), the
Escape pause toggle, or a start/restart click. -/
inductive Act where
  | key (rnd : DestroyRnd) (c : Char)
  | tick (seed : SpawnSeed)
  | pause
  | restart

/-- Apply one event to the state. -/
def applyAct (k : Kern) (s : GState) : Act → GState
  | Act.key rnd c => Game.handleInput rnd c s
  | Act.tick seed => Game.logic k seed s
  | Act.pause => Game.togglePause s
  | Act.restart => Game.start s

/-- Run a sequence of events. -/
def runActs (k : Kern) (s : GState) (l : List Act) : GState :=
  l.foldl (applyAct k) s

/-- A tick's spawn seed is valid for the state it fires in: the word index
addresses the active difficulty's list and the unit randoms lie in
`[0, 1)`, as `Math.random()` guarantees. -/
def seedOK (s : GState) (seed : SpawnSeed) : Bool :=
  decide (seed.wi < (wordListFor s.currentDifficulty).length) &&
  decide (0 ≤ seed.xR) && decide (seed.xR < 1) &&
  decide (0 ≤ seed.speedR) && decide (seed.speedR < 1)

/-- Every tick of the event sequence carries a valid spawn seed for the
state it is applied to. -/
def actsOK (k : Kern) (s : GState) : List Act → Bool
  | [] => true
  | a :: l =>
    (match a with
     | Act.tick seed => seedOK s seed
     | _ => true) && actsOK k (applyAct k s a) l

/-- The states reachable from a freshly started game (viewport `w × h`,
persisted high score `hs0`) through valid event sequences. -/
def Reachable (k : Kern) (w h : ℚ) (hs0 : ℕ) (s : GState) : Prop :=
  ∃ l : List Act, actsOK k (Game.start (initState w h hs0)) l = true ∧
    runActs k (Game.start (initState w h hs0)) l = s

/-! Concrete instantiations used by the scenario theorems below: a fixed
kernel for the abstracted float math, constant randomness oracles, and an
800 × 600 viewport. -/

/-- A concrete kernel instance for the abstracted float computations (their
values are irrelevant to every property proved below). -/
def kDummy : Kern :=
  { playerUpd := fun _ _ a ta _ => (a, ta),
    projMove := fun x y _ _ => (x, y),
    projHit := fun _ _ _ _ => false }

/-- A constant destruction-randomness oracle. -/
def rnd0 : DestroyRnd :=
  { spark := fun _ => (0, 0, 0, 0), fire := fun _ => (0, 0, 0, 0),
    smoke := fun _ => (0, 0, 0), textR := fun _ => (0, 0, 0) }

/-- A spawn seed drawing the word "CODE" (index 7 of `WORDS_EASY`), x
random 0 and speed random 5/8 (descent speed exactly 1). -/
def seedCODE : SpawnSeed := { wi := 7, xR := 0, speedR := 5/8 }

/-- A freshly started game on an 800 × 600 viewport with no stored high
score: health 100, score 0, wave 1, no entities, no lock. -/
def fresh : GState := Game.start (initState 800 600 0)

/-- The single enemy of the spec's scenario: word "CODE", nothing matched
yet, descending at speed 1, at height `y`. -/
def enemyCODE (y : ℚ) : Enemy :=
  { id := 0, word := "CODE", matchedIndex := 0, x := 400, y := y, speed := 1,
    isLocked := false, markedForDeletion := false, rotation := 0, pulse := 0 }

/-- A fresh game holding exactly one enemy, "CODE" at height `y`. -/
def freshWith (y : ℚ) : GState :=
  { fresh with heap := [enemyCODE y], enemies := [0] }

/-- Typing the four letters of "CODE" in order. -/
def typeCODE : List Act :=
  [Act.key rnd0 'C', Act.key rnd0 'O', Act.key rnd0 'D', Act.key rnd0 'E']

/-- An event sequence from a freshly started game that re-locks a
destroyed enemy: 206 ticks (the spawn timer fires at tick 116 and the
"CODE" enemy then descends to y = 0.1 > 0), the four letters of "CODE"
(which destroy it), then one more C before any tick can prune it. -/
def bugTrace : List Act :=
  List.replicate 206 (Act.tick seedCODE) ++ typeCODE ++ [Act.key rnd0 'C']

/-- The state reached by `bugTrace`. -/
def badS : GState := runActs kDummy fresh bugTrace

/-- Whether the heap entry `t` will cross the bottom boundary on a tick
with viewport height `hgt` and difficulty multiplier `m`. -/
def missB (hgt m : ℚ) (heap : List Enemy) (t : ℕ) : Bool :=
  match heap[t]? with
  | some e => decide (hgt < e.y + e.speed * m)
  | none => false

/-- How many enemies of the collection cross the bottom boundary on a tick
(each one costs 20 health). -/
def missCount (hgt m : ℚ) (heap : List Enemy) (ens : List ℕ) : ℕ :=
  (ens.filter (missB hgt m heap)).length

/-- The wave value after the wave-grouping block of a tick:
`wave + 1` exactly when `floor(score/500) + 1 > wave`. -/
def waveAfter (s : GState) : ℕ :=
  if s.wave < s.score / 500 + 1 then s.wave + 1 else s.wave

/-- The wave-scaled difficulty multiplier `1 + wave*0.1` in force during a
tick's enemy pass (the wave block runs first). -/
def multAfter (s : GState) : ℚ :=
  1 + (waveAfter s : ℚ) * (1/10)

/-- The state after the first 115 ticks of `bugTrace`: only the spawn
timer has moved. -/
def fresh115 : GState := { fresh with spawnTimer := 115 }

/-- The "CODE" enemy spawned on tick 116 of `bugTrace`, as it stands `k`
ticks later: it has descended `(k+1) · 1.1` from its spawn height. -/
def spawnedE (k : ℕ) : Enemy :=
  { id := 0, word := "CODE", matchedIndex := 0, x := 100,
    y := -100 + ((k : ℚ) + 1) * (11/10), speed := 1,
    isLocked := false, markedForDeletion := false,
    rotation := ((k : ℚ) + 1) * (1/50), pulse := ((k : ℚ) + 1) * (1/10) }

/-- The state after tick `116 + k` of `bugTrace`. -/
def sAfter (k : ℕ) : GState :=
  { fresh with spawnTimer := k, heap := [spawnedE k], enemies := [0] }

/-- "CODE" locked with one letter already matched, for the mismatch
theorem's witness. -/
def lockedCODE : Enemy := { enemyCODE 50 with matchedIndex := 1, isLocked := true }

/-- An uncleared locked state for the mismatch theorem's witness. -/
def lockedS : GState :=
  { fresh with heap := [lockedCODE], enemies := [0], lockedTarget := some 0 }

/-- A second candidate enemy, "CORE", deeper than `enemyCODE 50`. -/
def coreE : Enemy :=
  { id := 1, word := "CORE", matchedIndex := 0, x := 300, y := 70,
    speed := 1, isLocked := false, markedForDeletion := false,
    rotation := 0, pulse := 0 }

/-- Two candidate enemies for the lock-selection witness: "CODE" at y = 50
and "CORE" deeper at y = 70. -/
def twoCands : GState :=
  { fresh with heap := [enemyCODE 50, coreE], enemies := [0, 1] }

/-- A fully typed "PIXEL" enemy worth 50 points. -/
def pixelE : Enemy :=
  { id := 0, word := "PIXEL", matchedIndex := 4, x := 400, y := 50,
    speed := 1, isLocked := true, markedForDeletion := false,
    rotation := 0, pulse := 0 }

/-- A game at score 480 (below the 500 milestone) about to destroy the
"PIXEL" enemy: the kill lands on 530, across the milestone. -/
def nearMilestone : GState :=
  { fresh with
    score := 480, health := 50, heap := [pixelE],
    enemies := [0], lockedTarget := some 0 }

/-- A locked enemy at y = 599.5 that will cross the 600-high viewport
bottom on the next tick. -/
def crossE : Enemy := { enemyCODE (1199/2) with isLocked := true }

/-- A surviving enemy at y = 50. -/
def gridE : Enemy :=
  { id := 1, word := "GRID", matchedIndex := 0, x := 300, y := 50,
    speed := 1, isLocked := false, markedForDeletion := false,
    rotation := 0, pulse := 0 }

/-- A tick witness state: the locked enemy crosses the bottom this tick
(costing 20 health and the lock); the second enemy survives. -/
def missState : GState :=
  { fresh with
    heap := [crossE, gridE], enemies := [0, 1], lockedTarget := some 0 }

/-- The idle pre-start state on the 800 × 600 viewport. -/
def idleS : GState := initState 800 600 0

/-! ## Theorems -/

/-- C9: `togglePause()` has no effect at all when the game is not active,
and calling it twice in succession returns the paused flag to its original
value while mutating no entity collection, score, health, wave or stat:
the double toggle restores the entire state. -/
theorem claim_C9 (s : GState) :
    (s.active = false → Game.togglePause s = s) ∧
    Game.togglePause (Game.togglePause s) = s := by
  constructor
  · intro h
    simp [Game.togglePause, h]
  · cases ha : s.active
    · simp [Game.togglePause, ha]
    · simp [Game.togglePause, ha]
      rw [← ha]

/-- Witness for C9 at the concrete idle state. -/
theorem claim_C9_w :
    Game.togglePause idleS = idleS ∧
    Game.togglePause (Game.togglePause idleS) = idleS :=
  ⟨(claim_C9 idleS).1 rfl, (claim_C9 idleS).2⟩

/-- C10: `start()` resets score, health, wave, spawn timer, every entity
collection, the lock, the paused flag, the stats block (score history
restarted at its game-start value `[0]`) and the milestone threshold, and
activates the game, while leaving the persisted high score and the
selected difficulty unchanged. -/
theorem claim_C10 (s : GState) :
    (Game.start s).score = 0 ∧
    (Game.start s).health = 100 ∧
    (Game.start s).wave = 1 ∧
    (Game.start s).spawnTimer = 0 ∧
    (Game.start s).enemies = [] ∧
    (Game.start s).projectiles = [] ∧
    (Game.start s).particles = [] ∧
    (Game.start s).effects = [] ∧
    (Game.start s).lockedTarget = none ∧
    (Game.start s).paused = false ∧
    (Game.start s).stats = { keysTyped := 0, keysHit := 0, currentStreak := 0,
                             maxStreak := 0, scoreHistory := [0] } ∧
    (Game.start s).milestone = 500 ∧
    (Game.start s).active = true ∧
    (Game.start s).highScore = s.highScore ∧
    (Game.start s).currentDifficulty = s.currentDifficulty :=
  ⟨rfl, rfl, rfl, rfl, rfl, rfl, rfl, rfl, rfl, rfl, rfl, rfl, rfl, rfl, rfl⟩

/-- C1 fails as stated: from a fresh game holding the single enemy "CODE"
at y = -50, typing "C", "O", "D", "E" locks nothing — the candidate filter
`e.word.startsWith(char) && e.y > 0` rejects every enemy that has not yet
entered the screen — so matchedIndex stays 0, nothing is destroyed and the
score stays 0, not 40. -/
theorem claim_C1_cex :
    (runActs kDummy (freshWith (-50)) typeCODE).score = 0 ∧
    (runActs kDummy (freshWith (-50)) typeCODE).lockedTarget = none ∧
    (runActs kDummy (freshWith (-50)) typeCODE).heap[0]? =
      some (enemyCODE (-50)) := by decide

/-- C1 amended (the enemy must already be on screen — y positive — as the
candidate filter `e.y > 0` requires; y = -50 cannot be locked): with "CODE"
at y = 50, the first "C" locks it, the four keystrokes advance its
matchedIndex through 1, 2, 3, 4, the enemy is marked destroyed, exactly 40
points (4 × 10) are scored, and lockedTarget ends cleared. -/
theorem claim_C1 :
    ((runActs kDummy (freshWith 50) (typeCODE.take 1)).lockedTarget = some 0 ∧
     ((runActs kDummy (freshWith 50) (typeCODE.take 1)).heap[0]?).map
        Enemy.matchedIndex = some 1) ∧
    ((runActs kDummy (freshWith 50) (typeCODE.take 2)).heap[0]?).map
        Enemy.matchedIndex = some 2 ∧
    ((runActs kDummy (freshWith 50) (typeCODE.take 3)).heap[0]?).map
        Enemy.matchedIndex = some 3 ∧
    (((runActs kDummy (freshWith 50) typeCODE).heap[0]?).map
        Enemy.matchedIndex = some 4 ∧
     ((runActs kDummy (freshWith 50) typeCODE).heap[0]?).map
        Enemy.markedForDeletion = some true ∧
     (runActs kDummy (freshWith 50) typeCODE).score = 40 ∧
     (runActs kDummy (freshWith 50) typeCODE).lockedTarget = none) := by decide

/-- C3 fails as stated: the enemy "CODE" at y = -50 is non-deleted, its
word starts with the typed "C", and it is above the kill boundary, so the
claim's candidate set is non-empty and a lock should follow — but the
code's filter is `e.y > 0`, which rejects it: the keystroke falls into the
empty-candidate branch (streak reset, error cue, no lock, no projectile). -/
theorem claim_C3_cex :
    (Game.handleInput rnd0 'C' (freshWith (-50))).lockedTarget = none ∧
    ((Game.handleInput rnd0 'C' (freshWith (-50))).heap[0]?).map
        Enemy.isLocked = some false ∧
    (Game.handleInput rnd0 'C' (freshWith (-50))).stats.currentStreak = 0 ∧
    (Game.handleInput rnd0 'C' (freshWith (-50))).cues = [Cue.error] ∧
    (Game.handleInput rnd0 'C' (freshWith (-50))).projectiles = [] := by decide

/-- C5: a keystroke processed while a target is locked whose character
differs from the desired `word[matchedIndex]` of the locked target (a
character that exists: matchedIndex < word.length) resets the current
streak to 0 and emits an error cue, and changes nothing else — the lock
still holds the same enemy, its matchedIndex is not rolled back, and
score, health and every entity collection are untouched (keysTyped
excepted). -/
theorem claim_C5 (rnd : DestroyRnd) (c : Char) (tid : ℕ) (s : GState) (e : Enemy)
    (ha : s.active = true) (hp : s.paused = false)
    (hl : s.lockedTarget = some tid)
    (he : s.heap[tid]? = some e)
    (hi : e.matchedIndex < e.word.length)
    (hc : e.word.data[e.matchedIndex]? ≠ some c) :
    Game.handleInput rnd c s =
      { s with stats := { s.stats with keysTyped := s.stats.keysTyped + 1,
                                       currentStreak := 0 },
               cues := s.cues ++ [Cue.error] } := by
  simp only [Game.handleInput, ha, hp, Bool.not_true, Bool.false_or,
    if_neg Bool.false_ne_true, hl, he, if_neg hc, emit,
    if_neg (not_le.mpr hi)]

/-- Witness for C5: a wrong key "X" against the locked "CODE" (desired
"O") only bumps keysTyped, zeroes the streak and logs the error cue. -/
theorem claim_C5_w :
    Game.handleInput rnd0 'X' lockedS =
      { lockedS with
        stats := { lockedS.stats with keysTyped := lockedS.stats.keysTyped + 1,
                                      currentStreak := 0 },
        cues := lockedS.cues ++ [Cue.error] } :=
  claim_C5 rnd0 'X' 0 lockedS lockedCODE rfl rfl rfl rfl (by decide) (by decide)

/-- C7: when a kill takes the score from below the current milestone
threshold to at or above it, the reward cue fires exactly once, the
milestone threshold advances by exactly 500, and health increases by
exactly 20, capped at 100. -/
theorem claim_C7 (rnd : DestroyRnd) (tid : ℕ) (s : GState) (e : Enemy)
    (he : s.heap[tid]? = some e)
    (hlow : s.score < s.milestone)
    (hhit : s.milestone ≤ s.score + e.word.length * 10) :
    (Game.destroyEnemy rnd tid s).score = s.score + e.word.length * 10 ∧
    (Game.destroyEnemy rnd tid s).milestone = s.milestone + 500 ∧
    (Game.destroyEnemy rnd tid s).health = min 100 (s.health + 20) ∧
    (Game.destroyEnemy rnd tid s).cues = s.cues ++ [Cue.explosion, Cue.reward] := by
  simp [Game.destroyEnemy, he, emit, if_pos hhit]

/-- Witness for C7: destroying the fully typed "PIXEL" at score 480 lands
on 530, fires one reward cue, moves the milestone to 1000 and heals 50 to
70. -/
theorem claim_C7_w :
    (Game.destroyEnemy rnd0 0 nearMilestone).score =
      nearMilestone.score + pixelE.word.length * 10 ∧
    (Game.destroyEnemy rnd0 0 nearMilestone).milestone =
      nearMilestone.milestone + 500 ∧
    (Game.destroyEnemy rnd0 0 nearMilestone).health =
      min 100 (nearMilestone.health + 20) ∧
    (Game.destroyEnemy rnd0 0 nearMilestone).cues =
      nearMilestone.cues ++ [Cue.explosion, Cue.reward] :=
  claim_C7 rnd0 0 nearMilestone pixelE rfl (by decide) (by decide)

/-- The head of the stable descending sort is a member of the pool. -/
theorem pickTarget_cons (heap : List Enemy) (c0 a : ℕ) (t : List ℕ) :
    Game.pickTarget heap c0 (a :: t) =
      Game.pickTarget heap (if Game.yAt heap c0 < Game.yAt heap a then a else c0) t := rfl

/-- The head of the stable descending sort is a member of the pool. -/
theorem pickTarget_mem (heap : List Enemy) (c0 : ℕ) (rest : List ℕ) :
    Game.pickTarget heap c0 rest ∈ c0 :: rest := by
  induction rest generalizing c0 with
  | nil => simp [Game.pickTarget]
  | cons a t ih =>
    rw [pickTarget_cons]
    by_cases hca : Game.yAt heap c0 < Game.yAt heap a
    · rw [if_pos hca]
      exact List.mem_cons_of_mem _ (ih a)
    · rw [if_neg hca]
      rcases List.mem_cons.mp (ih c0) with h1 | h1
      · rw [h1]
        exact List.mem_cons_self _ _
      · exact List.mem_cons_of_mem _ (List.mem_cons_of_mem _ h1)

/-- The head of the stable descending sort has maximal y in the pool. -/
theorem pickTarget_max (heap : List Enemy) (c0 : ℕ) (rest : List ℕ) :
    ∀ j ∈ c0 :: rest, Game.yAt heap j ≤ Game.yAt heap (Game.pickTarget heap c0 rest) := by
  induction rest generalizing c0 with
  | nil =>
    intro j hj
    have h1 : j = c0 := by simpa using hj
    rw [h1]
    exact le_refl _
  | cons a t ih =>
    intro j hj
    rw [pickTarget_cons]
    by_cases hca : Game.yAt heap c0 < Game.yAt heap a
    · rw [if_pos hca]
      rcases List.mem_cons.mp hj with h1 | h1
      · rw [h1]
        exact le_trans (le_of_lt hca) (ih a a (List.mem_cons_self _ _))
      · rcases List.mem_cons.mp h1 with h2 | h2
        · rw [h2]
          exact ih a a (List.mem_cons_self _ _)
        · exact ih a j (List.mem_cons_of_mem _ h2)
    · rw [if_neg hca]
      rcases List.mem_cons.mp hj with h1 | h1
      · rw [h1]
        exact ih c0 c0 (List.mem_cons_self _ _)
      · rcases List.mem_cons.mp h1 with h2 | h2
        · rw [h2]
          exact le_trans (le_of_not_lt hca) (ih c0 c0 (List.mem_cons_self _ _))
        · exact ih c0 j (List.mem_cons_of_mem _ h2)

/-- Membership in the candidate pool unpacks to: in the collection, the
heap entry exists, its word starts with the character, and it is on
screen. -/
theorem mem_candidates (heap : List Enemy) (ens : List ℕ) (c : Char) (j : ℕ)
    (hj : j ∈ Game.candidates heap ens c) :
    ∃ e, heap[j]? = some e ∧ e.word.data.head? = some c ∧ 0 < e.y ∧
      j ∈ ens := by
  have h := List.mem_filter.mp hj
  rcases hlook : heap[j]? with _ | e
  · rw [hlook] at h
    simp at h
  · refine ⟨e, rfl, ?_, ?_, h.1⟩
    · have h2 := h.2
      rw [hlook] at h2
      simp only [Bool.and_eq_true, beq_iff_eq, decide_eq_true_eq] at h2
      exact h2.1
    · have h2 := h.2
      rw [hlook] at h2
      simp only [Bool.and_eq_true, beq_iff_eq, decide_eq_true_eq] at h2
      exact h2.2

/-- The conditional max-streak update of the source equals a `max`. -/
theorem maxStreak_max (st : Stats) :
    (if st.maxStreak < st.currentStreak
     then { st with maxStreak := st.currentStreak } else st) =
    { st with maxStreak := max st.maxStreak st.currentStreak } := by
  split
  · rw [Nat.max_eq_right (le_of_lt (by assumption))]
  · rw [Nat.max_eq_left (le_of_not_lt (by assumption))]

/-- C3, amended to what the code's filter and lock branch do: for a
keystroke processed while no target is locked, the candidate set is
exactly the enemies of the collection whose word starts with the typed
character and whose y is positive (already on screen; the marked-for-
deletion flag and the bottom boundary are not consulted).  When the set is
non-empty, a candidate with maximal y (the first such, per the stable
descending sort) is selected and locked — isLocked set, lockedTarget
assigned, its matchedIndex incremented (from 0 to 1 for a fresh enemy) —
keysHit and currentStreak are incremented, a lock cue then a shoot cue are
emitted and exactly one projectile is spawned.  When the set is empty,
currentStreak resets to 0 and an error cue is emitted. -/
theorem claim_C3 (rnd : DestroyRnd) (c : Char) (s : GState)
    (ha : s.active = true) (hp : s.paused = false)
    (hl : s.lockedTarget = none) :
    (Game.candidates s.heap s.enemies c = [] →
      Game.handleInput rnd c s =
        { s with stats := { s.stats with keysTyped := s.stats.keysTyped + 1,
                                         currentStreak := 0 },
                 cues := s.cues ++ [Cue.error] }) ∧
    (∀ c0 rest, Game.candidates s.heap s.enemies c = c0 :: rest →
      ∃ tid e, tid ∈ Game.candidates s.heap s.enemies c ∧ s.heap[tid]? = some e ∧
        (∀ j ej, j ∈ Game.candidates s.heap s.enemies c → s.heap[j]? = some ej →
          ej.y ≤ e.y) ∧
        Game.handleInput rnd c s =
          { s with
            lockedTarget := some tid,
            heap := s.heap.set tid { e with isLocked := true,
                                            matchedIndex := e.matchedIndex + 1 },
            stats := { s.stats with
                       keysTyped := s.stats.keysTyped + 1,
                       keysHit := s.stats.keysHit + 1,
                       currentStreak := s.stats.currentStreak + 1,
                       maxStreak := max s.stats.maxStreak (s.stats.currentStreak + 1) },
            projectiles := s.projectiles ++
              [{ x := s.player.x, y := s.player.y, target := tid,
                 active := true, trail := [] }],
            cues := s.cues ++ [Cue.lock, Cue.shoot] }) := by
  constructor
  · intro hc
    simp only [Game.handleInput, ha, hp, Bool.not_true, Bool.false_or,
      if_neg Bool.false_ne_true, hl, hc, emit]
  · intro c0 rest hc
    have hpm : Game.pickTarget s.heap c0 rest ∈ Game.candidates s.heap s.enemies c := by
      rw [hc]
      exact pickTarget_mem s.heap c0 rest
    obtain ⟨e, he, hw, hy0, hmem⟩ := mem_candidates s.heap s.enemies c _ hpm
    refine ⟨Game.pickTarget s.heap c0 rest, e, hpm, he, ?_, ?_⟩
    · intro j ej hj hej
      have hle := pickTarget_max s.heap c0 rest j (by rw [← hc]; exact hj)
      have h1 : Game.yAt s.heap j = ej.y := by simp [Game.yAt, hej]
      have h2 : Game.yAt s.heap (Game.pickTarget s.heap c0 rest) = e.y := by
        simp [Game.yAt, he]
      rw [h1, h2] at hle
      exact hle
    · simp only [Game.handleInput, ha, hp, Bool.not_true, Bool.false_or,
        if_neg Bool.false_ne_true, hl, hc, he, Game.shoot, emit,
        List.append_assoc, List.cons_append, List.nil_append]
      split
      · rename_i hlt
        rw [Nat.max_eq_right (le_of_lt hlt)]
      · rename_i hge
        rw [Nat.max_eq_left (le_of_not_lt hge)]

/-- Witness for C3: against "CODE" at y = 50 and "CORE" at y = 70, a "C"
locks the deeper of the two. -/
theorem claim_C3_w :
    ∃ tid e, tid ∈ Game.candidates twoCands.heap twoCands.enemies 'C' ∧
      twoCands.heap[tid]? = some e ∧
      (∀ j ej, j ∈ Game.candidates twoCands.heap twoCands.enemies 'C' →
        twoCands.heap[j]? = some ej → ej.y ≤ e.y) ∧
      Game.handleInput rnd0 'C' twoCands =
        { twoCands with
          lockedTarget := some tid,
          heap := twoCands.heap.set tid { e with isLocked := true,
                                                 matchedIndex := e.matchedIndex + 1 },
          stats := { twoCands.stats with
                     keysTyped := twoCands.stats.keysTyped + 1,
                     keysHit := twoCands.stats.keysHit + 1,
                     currentStreak := twoCands.stats.currentStreak + 1,
                     maxStreak := max twoCands.stats.maxStreak
                       (twoCands.stats.currentStreak + 1) },
          projectiles := twoCands.projectiles ++
            [{ x := twoCands.player.x, y := twoCands.player.y, target := tid,
               active := true, trail := [] }],
          cues := twoCands.cues ++ [Cue.lock, Cue.shoot] } :=
  (claim_C3 rnd0 'C' twoCands rfl rfl rfl).2 0 [1] (by decide)

/-- A state observation fixed by every step of a fold is fixed by the
fold. -/
theorem foldl_fix {β : Type} (g : GState → β) (f : GState → ℕ → GState)
    (hf : ∀ s i, g (f s i) = g s) :
    ∀ (l : List ℕ) (s : GState), g (List.foldl f s l) = g s := by
  intro l
  induction l with
  | nil => intro s; rfl
  | cons a t ih =>
    intro s
    rw [List.foldl_cons, ih (f s a), hf]

/-- `takeDamage` changes only health, activity, the high score and the cue
log. -/
theorem takeDamage_frame (a : ℤ) (s : GState) :
    (Game.takeDamage a s).wave = s.wave ∧
    (Game.takeDamage a s).stats = s.stats ∧
    (Game.takeDamage a s).score = s.score ∧
    (Game.takeDamage a s).enemies = s.enemies ∧
    (Game.takeDamage a s).heap = s.heap ∧
    (Game.takeDamage a s).lockedTarget = s.lockedTarget ∧
    (Game.takeDamage a s).currentDifficulty = s.currentDifficulty ∧
    (Game.takeDamage a s).milestone = s.milestone ∧
    (Game.takeDamage a s).spawnTimer = s.spawnTimer ∧
    (Game.takeDamage a s).width = s.width ∧
    (Game.takeDamage a s).height = s.height ∧
    (Game.takeDamage a s).player = s.player ∧
    (Game.takeDamage a s).projectiles = s.projectiles ∧
    (Game.takeDamage a s).particles = s.particles ∧
    (Game.takeDamage a s).effects = s.effects ∧
    (Game.takeDamage a s).paused = s.paused := by
  refine ⟨?_, ?_, ?_, ?_, ?_, ?_, ?_, ?_, ?_, ?_, ?_, ?_, ?_, ?_, ?_, ?_⟩ <;>
    (unfold Game.takeDamage Game.gameOver emit; dsimp only; split_ifs <;> rfl)

/-- One enemy-update step changes only the heap entry, health, activity,
the lock, the high score and the cue log. -/
theorem enemyStep_frame (hgt m : ℚ) (s : GState) (tid : ℕ) :
    (Game.enemyStep hgt m s tid).wave = s.wave ∧
    (Game.enemyStep hgt m s tid).stats = s.stats ∧
    (Game.enemyStep hgt m s tid).score = s.score ∧
    (Game.enemyStep hgt m s tid).enemies = s.enemies ∧
    (Game.enemyStep hgt m s tid).currentDifficulty = s.currentDifficulty ∧
    (Game.enemyStep hgt m s tid).milestone = s.milestone ∧
    (Game.enemyStep hgt m s tid).spawnTimer = s.spawnTimer ∧
    (Game.enemyStep hgt m s tid).width = s.width ∧
    (Game.enemyStep hgt m s tid).height = s.height ∧
    (Game.enemyStep hgt m s tid).player = s.player ∧
    (Game.enemyStep hgt m s tid).projectiles = s.projectiles ∧
    (Game.enemyStep hgt m s tid).particles = s.particles ∧
    (Game.enemyStep hgt m s tid).effects = s.effects ∧
    (Game.enemyStep hgt m s tid).paused = s.paused := by
  unfold Game.enemyStep
  split
  · exact ⟨rfl, rfl, rfl, rfl, rfl, rfl, rfl, rfl, rfl, rfl, rfl, rfl, rfl, rfl⟩
  · rename_i e heq
    dsimp only
    split
    · obtain ⟨f1, f2, f3, f4, _, _, f7, f8, f9, f10, f11, f12, f13, f14, f15, f16⟩ :=
        takeDamage_frame 20 { s with heap := s.heap.set tid (Enemy.update hgt m e).1 }
      split
      · exact ⟨f1, f2, f3, f4, f7, f8, f9, f10, f11, f12, f13, f14, f15, f16⟩
      · exact ⟨f1, f2, f3, f4, f7, f8, f9, f10, f11, f12, f13, f14, f15, f16⟩
    · exact ⟨rfl, rfl, rfl, rfl, rfl, rfl, rfl, rfl, rfl, rfl, rfl, rfl, rfl, rfl⟩

/-- The enemy pass preserves the wave counter. -/
theorem enemyFold_wave (hgt m : ℚ) (l : List ℕ) (s : GState) :
    (Game.enemyFold hgt m l s).wave = s.wave :=
  foldl_fix GState.wave (Game.enemyStep hgt m)
    (fun s i => (enemyStep_frame hgt m s i).1) l s

/-- The enemy pass preserves the stats block. -/
theorem enemyFold_stats (hgt m : ℚ) (l : List ℕ) (s : GState) :
    (Game.enemyFold hgt m l s).stats = s.stats :=
  foldl_fix GState.stats (Game.enemyStep hgt m)
    (fun s i => (enemyStep_frame hgt m s i).2.1) l s

/-- The enemy pass preserves the score. -/
theorem enemyFold_score (hgt m : ℚ) (l : List ℕ) (s : GState) :
    (Game.enemyFold hgt m l s).score = s.score :=
  foldl_fix GState.score (Game.enemyStep hgt m)
    (fun s i => (enemyStep_frame hgt m s i).2.2.1) l s

/-- The enemy pass preserves the collection of ids. -/
theorem enemyFold_enemies (hgt m : ℚ) (l : List ℕ) (s : GState) :
    (Game.enemyFold hgt m l s).enemies = s.enemies :=
  foldl_fix GState.enemies (Game.enemyStep hgt m)
    (fun s i => (enemyStep_frame hgt m s i).2.2.2.1) l s

/-- The enemy pass preserves the selected difficulty. -/
theorem enemyFold_diff (hgt m : ℚ) (l : List ℕ) (s : GState) :
    (Game.enemyFold hgt m l s).currentDifficulty = s.currentDifficulty :=
  foldl_fix GState.currentDifficulty (Game.enemyStep hgt m)
    (fun s i => (enemyStep_frame hgt m s i).2.2.2.2.1) l s

/-- The spawn block never touches wave, score, stats, health, the lock,
activity, the milestone or the difficulty. -/
theorem spawnPhase_frame (seed : SpawnSeed) (s : GState) :
    (Game.spawnPhase seed s).wave = s.wave ∧
    (Game.spawnPhase seed s).score = s.score ∧
    (Game.spawnPhase seed s).stats = s.stats ∧
    (Game.spawnPhase seed s).health = s.health ∧
    (Game.spawnPhase seed s).lockedTarget = s.lockedTarget ∧
    (Game.spawnPhase seed s).active = s.active ∧
    (Game.spawnPhase seed s).milestone = s.milestone ∧
    (Game.spawnPhase seed s).currentDifficulty = s.currentDifficulty ∧
    (Game.spawnPhase seed s).height = s.height ∧
    (Game.spawnPhase seed s).width = s.width := by
  refine ⟨?_, ?_, ?_, ?_, ?_, ?_, ?_, ?_, ?_, ?_⟩ <;>
    (unfold Game.spawnPhase Game.spawnEnemy; dsimp only; split_ifs <;> rfl)

/-- Projection helpers: each later phase of `logic` leaves the wave
counter and the stats block alone. -/
theorem cleanupPhase_wave (s : GState) : (Game.cleanupPhase s).wave = s.wave := rfl

theorem cleanupPhase_stats (s : GState) : (Game.cleanupPhase s).stats = s.stats := rfl

theorem shakePhase_wave (s : GState) : (Game.shakePhase s).wave = s.wave := by
  unfold Game.shakePhase
  split <;> rfl

theorem shakePhase_stats (s : GState) : (Game.shakePhase s).stats = s.stats := by
  unfold Game.shakePhase
  split <;> rfl

theorem effectPhase_wave (s : GState) : (Game.effectPhase s).wave = s.wave := rfl

theorem effectPhase_stats (s : GState) : (Game.effectPhase s).stats = s.stats := rfl

theorem particlePhase_wave (s : GState) : (Game.particlePhase s).wave = s.wave := rfl

theorem particlePhase_stats (s : GState) : (Game.particlePhase s).stats = s.stats := rfl

theorem projPhase_wave (k : Kern) (s : GState) : (Game.projPhase k s).wave = s.wave := rfl

theorem projPhase_stats (k : Kern) (s : GState) :
    (Game.projPhase k s).stats = s.stats := rfl

theorem playerPhase_wave (k : Kern) (s : GState) :
    (Game.playerPhase k s).wave = s.wave := rfl

theorem playerPhase_stats (k : Kern) (s : GState) :
    (Game.playerPhase k s).stats = s.stats := rfl

theorem enemyPhase_wave (s : GState) : (Game.enemyPhase s).wave = s.wave := by
  unfold Game.enemyPhase
  exact enemyFold_wave _ _ _ _

theorem enemyPhase_stats (s : GState) : (Game.enemyPhase s).stats = s.stats := by
  unfold Game.enemyPhase
  exact enemyFold_stats _ _ _ _

/-- The tail of the scheduled `logic` phases (player, enemies,
projectiles, particles, effects, shake, cleanup) preserves both the wave
counter and the stats block. -/
theorem logicTail_wave_stats (k : Kern) (s2 : GState) :
    (Game.cleanupPhase (Game.shakePhase (Game.effectPhase (Game.particlePhase
      (Game.projPhase k (Game.enemyPhase (Game.playerPhase k s2))))))).wave = s2.wave ∧
    (Game.cleanupPhase (Game.shakePhase (Game.effectPhase (Game.particlePhase
      (Game.projPhase k (Game.enemyPhase (Game.playerPhase k s2))))))).stats = s2.stats := by
  constructor
  · rw [cleanupPhase_wave, shakePhase_wave, effectPhase_wave, particlePhase_wave,
      projPhase_wave, enemyPhase_wave, playerPhase_wave]
  · rw [cleanupPhase_stats, shakePhase_stats, effectPhase_stats, particlePhase_stats,
      projPhase_stats, enemyPhase_stats, playerPhase_stats]

/-- C8: on every logic tick the wave number increments exactly when
`floor(score/500) + 1` exceeds the current wave, and on every such
increment exactly one sample equal to the current score is appended to the
score-history sequence (otherwise the history is untouched). -/
theorem claim_C8 (k : Kern) (seed : SpawnSeed) (s : GState) :
    (Game.logic k seed s).wave =
      (if s.wave < s.score / 500 + 1 then s.wave + 1 else s.wave) ∧
    (Game.logic k seed s).stats.scoreHistory =
      (if s.wave < s.score / 500 + 1 then s.stats.scoreHistory ++ [s.score]
       else s.stats.scoreHistory) := by
  have hsp := spawnPhase_frame seed s
  have ht := logicTail_wave_stats k (Game.wavePhase (Game.spawnPhase seed s))
  constructor
  · rw [Game.logic, ht.1]
    unfold Game.wavePhase
    rw [hsp.1, hsp.2.1]
    split
    · rfl
    · exact hsp.1
  · rw [Game.logic, ht.2]
    unfold Game.wavePhase
    rw [hsp.1, hsp.2.1, hsp.2.2.1]
    split
    · rfl
    · exact congrArg Stats.scoreHistory hsp.2.2.1

/-- Clamping at zero as a `max`. -/
theorem ite_neg_max (x : ℤ) : (if x < 0 then 0 else x) = max 0 x := by
  rcases lt_or_le x 0 with h | h
  · rw [if_pos h, max_eq_left (le_of_lt h)]
  · rw [if_neg (not_lt.mpr h), max_eq_right h]

/-- The descent step of `Enemy.update`, spelled out field by field. -/
theorem Enemy.update_fst (hgt m : ℚ) (e : Enemy) :
    (Enemy.update hgt m e).1 =
      { e with y := e.y + e.speed * m,
               rotation := e.rotation + 1/50,
               pulse := e.pulse + 1/10,
               markedForDeletion :=
                 if hgt < e.y + e.speed * m then true else e.markedForDeletion } := by
  unfold Enemy.update
  dsimp only
  split <;> rfl

/-- The miss signal of `Enemy.update`. -/
theorem Enemy.update_snd (hgt m : ℚ) (e : Enemy) :
    (Enemy.update hgt m e).2 = decide (hgt < e.y + e.speed * m) := by
  unfold Enemy.update
  dsimp only
  split
  · rename_i h
    exact (decide_eq_true h).symm
  · rename_i h
    exact (decide_eq_false h).symm

/-- `gameOver` always deactivates. -/
theorem gameOver_active (s : GState) : (Game.gameOver s).active = false := by
  unfold Game.gameOver emit
  dsimp only
  split <;> rfl

/-- `gameOver` keeps health. -/
theorem gameOver_health (s : GState) : (Game.gameOver s).health = s.health := by
  unfold Game.gameOver emit
  dsimp only
  split <;> rfl

/-- `takeDamage` subtracts and clamps at zero. -/
theorem takeDamage_health (a : ℤ) (s : GState) :
    (Game.takeDamage a s).health = max 0 (s.health - a) := by
  unfold Game.takeDamage emit
  dsimp only
  split
  · rename_i h
    rw [max_eq_left (le_of_lt h)]
    split
    · rw [gameOver_health]
    · rfl
  · rename_i h
    rw [max_eq_right (not_lt.mp h)]
    split
    · rw [gameOver_health]
    · rfl

/-- `takeDamage` ends the game exactly when the unclamped health hits 0. -/
theorem takeDamage_active (a : ℤ) (s : GState) :
    (Game.takeDamage a s).active = if s.health - a ≤ 0 then false else s.active := by
  unfold Game.takeDamage emit
  dsimp only
  split
  · rename_i h
    rw [if_pos (le_of_lt h)]
    split
    · exact gameOver_active _
    · rename_i h2
      exact absurd (le_refl (0:ℤ)) h2
  · split
    · exact gameOver_active _
    · rfl

/-- An enemy-update step over a missing heap index is a no-op. -/
theorem enemyStep_none (hgt m : ℚ) (s : GState) (tid : ℕ)
    (h : s.heap[tid]? = none) : Game.enemyStep hgt m s tid = s := by
  simp [Game.enemyStep, h]

/-- An enemy-update step writes the updated enemy back to its heap slot. -/
theorem enemyStep_heap (hgt m : ℚ) (s : GState) (tid : ℕ) (e : Enemy)
    (he : s.heap[tid]? = some e) :
    (Game.enemyStep hgt m s tid).heap = s.heap.set tid (Enemy.update hgt m e).1 := by
  simp only [Game.enemyStep, he]
  split
  · split
    · exact (takeDamage_frame 20 _).2.2.2.2.1
    · exact (takeDamage_frame 20 _).2.2.2.2.1
  · rfl

/-- An enemy-update step damages health by a clamped 20 exactly when the
enemy crosses the bottom boundary. -/
theorem enemyStep_health (hgt m : ℚ) (s : GState) (tid : ℕ) (e : Enemy)
    (he : s.heap[tid]? = some e) :
    (Game.enemyStep hgt m s tid).health =
      if hgt < e.y + e.speed * m then max 0 (s.health - 20) else s.health := by
  simp only [Game.enemyStep, he]
  rw [Enemy.update_snd]
  simp only [decide_eq_true_eq]
  split
  · split
    · exact takeDamage_health 20 _
    · exact takeDamage_health 20 _
  · rfl

/-- An enemy-update step deactivates the game exactly when the enemy
crosses the bottom and the damage empties the health bar. -/
theorem enemyStep_active (hgt m : ℚ) (s : GState) (tid : ℕ) (e : Enemy)
    (he : s.heap[tid]? = some e) :
    (Game.enemyStep hgt m s tid).active =
      if hgt < e.y + e.speed * m then
        (if s.health - 20 ≤ 0 then false else s.active)
      else s.active := by
  simp only [Game.enemyStep, he]
  rw [Enemy.update_snd]
  simp only [decide_eq_true_eq]
  split
  · split
    · exact takeDamage_active 20 _
    · exact takeDamage_active 20 _
  · rfl

/-- An enemy-update step clears the lock exactly when the enemy crosses
the bottom while being the locked target. -/
theorem enemyStep_lock (hgt m : ℚ) (s : GState) (tid : ℕ) (e : Enemy)
    (he : s.heap[tid]? = some e) :
    (Game.enemyStep hgt m s tid).lockedTarget =
      if hgt < e.y + e.speed * m then
        (if s.lockedTarget = some tid then none else s.lockedTarget)
      else s.lockedTarget := by
  simp only [Game.enemyStep, he]
  rw [Enemy.update_snd]
  simp only [decide_eq_true_eq]
  split
  · have hfr : (Game.takeDamage 20
        { s with heap := s.heap.set tid (Enemy.update hgt m e).1 }).lockedTarget =
        s.lockedTarget := (takeDamage_frame 20 _).2.2.2.2.2.1
    rw [hfr]
    split
    · rfl
    · exact hfr
  · rfl

theorem enemyFold_nil (hgt m : ℚ) (s : GState) :
    Game.enemyFold hgt m [] s = s := rfl

theorem enemyFold_cons (hgt m : ℚ) (a : ℕ) (t : List ℕ) (s : GState) :
    Game.enemyFold hgt m (a :: t) s =
      Game.enemyFold hgt m t (Game.enemyStep hgt m s a) := rfl

/-- A missing heap slot never signals a miss. -/
theorem missB_none (hgt m : ℚ) (heap : List Enemy) (t : ℕ)
    (h : heap[t]? = none) : missB hgt m heap t = false := by
  unfold missB
  rw [h]

/-- The miss flag of a present heap slot. -/
theorem missB_some (hgt m : ℚ) (heap : List Enemy) (t : ℕ) (e : Enemy)
    (h : heap[t]? = some e) :
    missB hgt m heap t = decide (hgt < e.y + e.speed * m) := by
  unfold missB
  rw [h]

/-- Heaps that agree on the listed slots give the same miss count. -/
theorem missCount_congr (hgt m : ℚ) (h1 h2 : List Enemy) (l : List ℕ)
    (hag : ∀ j ∈ l, h1[j]? = h2[j]?) :
    missCount hgt m h1 l = missCount hgt m h2 l := by
  unfold missCount
  rw [List.filter_congr (fun j hj => by unfold missB; rw [hag j hj])]
  rfl

/-- Splitting the miss count at the head of the collection. -/
theorem missCount_cons (hgt m : ℚ) (hp : List Enemy) (a : ℕ) (t : List ℕ) :
    missCount hgt m hp (a :: t) =
      (if missB hgt m hp a = true then 1 else 0) + missCount hgt m hp t := by
  unfold missCount
  rw [List.filter_cons]
  split
  · rw [List.length_cons, Nat.add_comm]
  · rw [Nat.zero_add]

/-- The enemy pass leaves unlisted heap slots alone. -/
theorem enemyFold_heap_not_mem (hgt m : ℚ) (l : List ℕ) :
    ∀ (s : GState) (j : ℕ), j ∉ l →
      (Game.enemyFold hgt m l s).heap[j]? = s.heap[j]? := by
  induction l with
  | nil => intro s j _; rfl
  | cons a t ih =>
    intro s j hj
    have hja : j ≠ a := fun h => hj (h ▸ List.mem_cons_self a t)
    have hjt : j ∉ t := fun h => hj (List.mem_cons_of_mem a h)
    rw [enemyFold_cons, ih _ j hjt]
    rcases hsa : s.heap[a]? with _ | e
    · rw [enemyStep_none hgt m s a hsa]
    · rw [enemyStep_heap hgt m s a e hsa]
      exact List.getElem?_set_ne (Ne.symm hja)

/-- The enemy pass runs `Enemy.update` exactly once on every listed slot. -/
theorem enemyFold_heap_mem (hgt m : ℚ) (l : List ℕ) :
    ∀ (s : GState), l.Nodup → ∀ j ∈ l, ∀ e, s.heap[j]? = some e →
      (Game.enemyFold hgt m l s).heap[j]? = some (Enemy.update hgt m e).1 := by
  induction l with
  | nil =>
    intro s _ j hj
    exact absurd hj (List.not_mem_nil j)
  | cons a t ih =>
    intro s hnd j hj e he
    obtain ⟨hna, hndt⟩ := List.nodup_cons.mp hnd
    rw [enemyFold_cons]
    rcases List.mem_cons.mp hj with h1 | h1
    · rw [h1] at he ⊢
      rw [enemyFold_heap_not_mem hgt m t _ a hna]
      rw [enemyStep_heap hgt m s a e he]
      have hlen : a < s.heap.length := (List.getElem?_eq_some_iff.mp he).1
      exact List.getElem?_set_self hlen
    · have hja : j ≠ a := fun hh => hna (hh ▸ h1)
      have hstep : (Game.enemyStep hgt m s a).heap[j]? = some e := by
        rcases hsa : s.heap[a]? with _ | ea
        · rw [enemyStep_none hgt m s a hsa]
          exact he
        · rw [enemyStep_heap hgt m s a ea hsa,
            List.getElem?_set_ne (Ne.symm hja)]
          exact he
      exact ih _ hndt j h1 e hstep

/-- Agreement of the post-step heap with the original on other slots. -/
theorem enemyStep_heap_other (hgt m : ℚ) (s : GState) (a : ℕ) :
    ∀ j, j ≠ a → (Game.enemyStep hgt m s a).heap[j]? = s.heap[j]? := by
  intro j hja
  rcases hsa : s.heap[a]? with _ | ea
  · rw [enemyStep_none hgt m s a hsa]
  · rw [enemyStep_heap hgt m s a ea hsa]
    exact List.getElem?_set_ne (Ne.symm hja)

/-- The enemy pass applies a clamped 20 damage per crossing enemy. -/
theorem enemyFold_health (hgt m : ℚ) (l : List ℕ) :
    ∀ (s : GState), l.Nodup → 0 ≤ s.health →
      (Game.enemyFold hgt m l s).health =
        max 0 (s.health - 20 * (missCount hgt m s.heap l : ℤ)) := by
  induction l with
  | nil =>
    intro s _ hh
    rw [enemyFold_nil]
    unfold missCount
    rw [List.filter_nil]
    simp only [List.length_nil, Nat.cast_zero, mul_zero, sub_zero]
    omega
  | cons a t ih =>
    intro s hnd hh
    obtain ⟨hna, hndt⟩ := List.nodup_cons.mp hnd
    rw [enemyFold_cons, missCount_cons]
    have hagree : ∀ j ∈ t, (Game.enemyStep hgt m s a).heap[j]? = s.heap[j]? :=
      fun j hj => enemyStep_heap_other hgt m s a j (fun hh2 => hna (hh2 ▸ hj))
    have hcnt : missCount hgt m (Game.enemyStep hgt m s a).heap t =
        missCount hgt m s.heap t := missCount_congr hgt m _ _ t hagree
    rcases hsa : s.heap[a]? with _ | ea
    · rw [missB_none hgt m s.heap a hsa, enemyStep_none hgt m s a hsa,
        ih s hndt hh]
      simp only [Bool.false_eq_true, if_false, Nat.zero_add]
    · by_cases hcr : hgt < ea.y + ea.speed * m
      · have hmiss : missB hgt m s.heap a = true := by
          rw [missB_some hgt m s.heap a ea hsa]
          exact decide_eq_true hcr
        have hsh : (Game.enemyStep hgt m s a).health = max 0 (s.health - 20) := by
          rw [enemyStep_health hgt m s a ea hsa, if_pos hcr]
        rw [ih _ hndt (by rw [hsh]; exact le_max_left 0 _), hsh, hcnt, hmiss]
        simp only [if_true]
        push_cast
        omega
      · have hmiss : missB hgt m s.heap a = false := by
          rw [missB_some hgt m s.heap a ea hsa]
          exact decide_eq_false hcr
        have hsh : (Game.enemyStep hgt m s a).health = s.health := by
          rw [enemyStep_health hgt m s a ea hsa, if_neg hcr]
        rw [ih _ hndt (by rw [hsh]; exact hh), hsh, hcnt, hmiss]
        simp only [Bool.false_eq_true, if_false, Nat.zero_add]

/-- Extending the searched collection by an id that cannot satisfy the
side condition changes nothing. -/
theorem mem_cons_and_iff (a t0 : ℕ) (t : List ℕ) (M : Prop)
    (hne : t0 = a → ¬M) : (t0 ∈ t ∧ M) ↔ (t0 ∈ a :: t ∧ M) := by
  constructor
  · rintro ⟨h1, h2⟩
    exact ⟨List.mem_cons_of_mem _ h1, h2⟩
  · rintro ⟨h1, h2⟩
    rcases List.mem_cons.mp h1 with h3 | h3
    · exact absurd h2 (hne h3)
    · exact ⟨h3, h2⟩

/-- The enemy pass keeps a cleared lock cleared. -/
theorem enemyFold_lock_none (hgt m : ℚ) (l : List ℕ) :
    ∀ (s : GState), s.lockedTarget = none →
      (Game.enemyFold hgt m l s).lockedTarget = none := by
  induction l with
  | nil => intro s h; exact h
  | cons a t ih =>
    intro s h
    rw [enemyFold_cons]
    apply ih
    rcases hsa : s.heap[a]? with _ | ea
    · rw [enemyStep_none hgt m s a hsa]
      exact h
    · rw [enemyStep_lock hgt m s a ea hsa, h]
      split
      · simp
      · rfl

/-- The enemy pass clears the lock exactly when the locked enemy is a
listed crossing enemy. -/
theorem enemyFold_lock_some (hgt m : ℚ) (l : List ℕ) :
    ∀ (s : GState) (t0 : ℕ), l.Nodup → s.lockedTarget = some t0 →
      (Game.enemyFold hgt m l s).lockedTarget =
        if t0 ∈ l ∧ missB hgt m s.heap t0 = true then none else some t0 := by
  induction l with
  | nil =>
    intro s t0 _ h
    rw [enemyFold_nil, h]
    simp
  | cons a t ih =>
    intro s t0 hnd h
    obtain ⟨hna, hndt⟩ := List.nodup_cons.mp hnd
    rw [enemyFold_cons]
    rcases hsa : s.heap[a]? with _ | ea
    · rw [enemyStep_none hgt m s a hsa, ih s t0 hndt h]
      exact if_congr (mem_cons_and_iff a t0 t _
        (fun heq hM => by rw [heq, missB_none hgt m s.heap a hsa] at hM; simp at hM))
        rfl rfl
    · by_cases ht0 : t0 = a
      · subst ht0
        by_cases hcr : hgt < ea.y + ea.speed * m
        · have hstep : (Game.enemyStep hgt m s t0).lockedTarget = none := by
            rw [enemyStep_lock hgt m s t0 ea hsa, if_pos hcr, h, if_pos rfl]
          rw [enemyFold_lock_none hgt m t _ hstep]
          have hmb : missB hgt m s.heap t0 = true := by
            rw [missB_some hgt m s.heap t0 ea hsa]
            exact decide_eq_true hcr
          rw [if_pos ⟨List.mem_cons_self t0 t, hmb⟩]
        · have hstep : (Game.enemyStep hgt m s t0).lockedTarget = some t0 := by
            rw [enemyStep_lock hgt m s t0 ea hsa, if_neg hcr]
            exact h
          rw [ih _ t0 hndt hstep]
          have hmb : missB hgt m s.heap t0 = false := by
            rw [missB_some hgt m s.heap t0 ea hsa]
            exact decide_eq_false hcr
          rw [if_neg (fun hcon => hna hcon.1),
            if_neg (fun hcon => by rw [hmb] at hcon; simp at hcon)]
      · have hstep : (Game.enemyStep hgt m s a).lockedTarget = some t0 := by
          rw [enemyStep_lock hgt m s a ea hsa, h]
          have hne : ¬(some t0 = some a) := fun hc => ht0 (Option.some.inj hc)
          split
          all_goals first
            | rfl
            | rw [if_neg hne]
        have hmb : missB hgt m (Game.enemyStep hgt m s a).heap t0 =
            missB hgt m s.heap t0 := by
          unfold missB
          rw [enemyStep_heap_other hgt m s a t0 ht0]
        rw [ih _ t0 hndt hstep, hmb]
        exact if_congr (mem_cons_and_iff a t0 t _
          (fun heq _ => absurd heq ht0)) rfl rfl

/-- One enemy-update step never reactivates the game. -/
theorem enemyStep_active_false (hgt m : ℚ) (s : GState) (a : ℕ)
    (h : s.active = false) : (Game.enemyStep hgt m s a).active = false := by
  rcases hsa : s.heap[a]? with _ | ea
  · rw [enemyStep_none hgt m s a hsa]
    exact h
  · rw [enemyStep_active hgt m s a ea hsa]
    split
    · split
      · rfl
      · exact h
    · exact h

/-- The enemy pass never reactivates the game. -/
theorem enemyFold_active_false (hgt m : ℚ) (l : List ℕ) :
    ∀ (s : GState), s.active = false →
      (Game.enemyFold hgt m l s).active = false := by
  induction l with
  | nil => intro s h; exact h
  | cons a t ih =>
    intro s h
    rw [enemyFold_cons]
    exact ih _ (enemyStep_active_false hgt m s a h)

/-- If the enemy pass empties the health bar through at least one miss,
the game deactivates. -/
theorem enemyFold_dead (hgt m : ℚ) (l : List ℕ) :
    ∀ (s : GState), l.Nodup → 0 ≤ s.health →
      (Game.enemyFold hgt m l s).health = 0 →
      1 ≤ missCount hgt m s.heap l →
      (Game.enemyFold hgt m l s).active = false := by
  induction l with
  | nil =>
    intro s _ _ _ hk
    rw [show missCount hgt m s.heap [] = 0 from rfl] at hk
    exact absurd hk (by omega)
  | cons a t ih =>
    intro s hnd hh hdead hk
    obtain ⟨hna, hndt⟩ := List.nodup_cons.mp hnd
    rw [enemyFold_cons] at hdead ⊢
    have hagree : ∀ j ∈ t, (Game.enemyStep hgt m s a).heap[j]? = s.heap[j]? :=
      fun j hj => enemyStep_heap_other hgt m s a j (fun hh2 => hna (hh2 ▸ hj))
    have hcnt : missCount hgt m (Game.enemyStep hgt m s a).heap t =
        missCount hgt m s.heap t := missCount_congr hgt m _ _ t hagree
    rcases hsa : s.heap[a]? with _ | ea
    · rw [enemyStep_none hgt m s a hsa] at hdead ⊢
      rw [missCount_cons, missB_none hgt m s.heap a hsa] at hk
      simp only [Bool.false_eq_true, if_false, Nat.zero_add] at hk
      exact ih s hndt hh hdead hk
    · by_cases hcr : hgt < ea.y + ea.speed * m
      · by_cases hle : s.health - 20 ≤ 0
        · apply enemyFold_active_false
          rw [enemyStep_active hgt m s a ea hsa, if_pos hcr, if_pos hle]
        · have hsh : (Game.enemyStep hgt m s a).health = s.health - 20 := by
            rw [enemyStep_health hgt m s a ea hsa, if_pos hcr]
            omega
          have hh2 : 0 ≤ (Game.enemyStep hgt m s a).health := by
            rw [hsh]
            omega
          have hkt : 1 ≤ missCount hgt m (Game.enemyStep hgt m s a).heap t := by
            by_contra hc
            have h0 : missCount hgt m (Game.enemyStep hgt m s a).heap t = 0 := by
              omega
            have hfh := enemyFold_health hgt m t _ hndt hh2
            rw [h0, hsh] at hfh
            rw [hfh] at hdead
            simp only [Nat.cast_zero, mul_zero, sub_zero] at hdead
            omega
          exact ih _ hndt hh2 hdead hkt
      · have hstep_h : (Game.enemyStep hgt m s a).health = s.health := by
          rw [enemyStep_health hgt m s a ea hsa, if_neg hcr]
        rw [missCount_cons, missB_some hgt m s.heap a ea hsa,
          decide_eq_false hcr] at hk
        simp only [Bool.false_eq_true, if_false, Nat.zero_add] at hk
        exact ih _ hndt (by rw [hstep_h]; exact hh) hdead
          (by rw [hcnt]; exact hk)

theorem enemyFold_append (hgt m : ℚ) (l1 l2 : List ℕ) (s : GState) :
    Game.enemyFold hgt m (l1 ++ l2) s =
      Game.enemyFold hgt m l2 (Game.enemyFold hgt m l1 s) := by
  unfold Game.enemyFold
  rw [List.foldl_append]

theorem missCount_append (hgt m : ℚ) (hp : List Enemy) (l1 l2 : List ℕ) :
    missCount hgt m hp (l1 ++ l2) =
      missCount hgt m hp l1 + missCount hgt m hp l2 := by
  unfold missCount
  rw [List.filter_append, List.length_append]

/-- The wave block computes `waveAfter`. -/
theorem wavePhase_wave_eq (s : GState) : (Game.wavePhase s).wave = waveAfter s := by
  unfold Game.wavePhase waveAfter
  split <;> rfl

/-- The wave block touches nothing but the wave counter and the stats. -/
theorem wavePhase_frame2 (s : GState) :
    (Game.wavePhase s).heap = s.heap ∧
    (Game.wavePhase s).enemies = s.enemies ∧
    (Game.wavePhase s).health = s.health ∧
    (Game.wavePhase s).lockedTarget = s.lockedTarget ∧
    (Game.wavePhase s).active = s.active ∧
    (Game.wavePhase s).score = s.score ∧
    (Game.wavePhase s).height = s.height := by
  unfold Game.wavePhase
  split <;> exact ⟨rfl, rfl, rfl, rfl, rfl, rfl, rfl⟩

/-- The player block touches nothing but the player. -/
theorem playerPhase_frame2 (k : Kern) (s : GState) :
    (Game.playerPhase k s).heap = s.heap ∧
    (Game.playerPhase k s).enemies = s.enemies ∧
    (Game.playerPhase k s).health = s.health ∧
    (Game.playerPhase k s).lockedTarget = s.lockedTarget ∧
    (Game.playerPhase k s).active = s.active ∧
    (Game.playerPhase k s).score = s.score ∧
    (Game.playerPhase k s).height = s.height ∧
    (Game.playerPhase k s).wave = s.wave :=
  ⟨rfl, rfl, rfl, rfl, rfl, rfl, rfl, rfl⟩

/-- The shake block touches neither score, health, lock, activity, heap
nor the collection. -/
theorem shakePhase_frame2 (s : GState) :
    (Game.shakePhase s).score = s.score ∧
    (Game.shakePhase s).health = s.health ∧
    (Game.shakePhase s).lockedTarget = s.lockedTarget ∧
    (Game.shakePhase s).active = s.active ∧
    (Game.shakePhase s).heap = s.heap ∧
    (Game.shakePhase s).enemies = s.enemies := by
  unfold Game.shakePhase
  split <;> exact ⟨rfl, rfl, rfl, rfl, rfl, rfl⟩

/-- The post-enemy tail of `logic` (projectiles, particles, effects,
shake, cleanup) keeps score, health, lock, activity and the heap, and
prunes exactly the marked ids from the collection. -/
theorem tail_frame (k : Kern) (x : GState) :
    (Game.cleanupPhase (Game.shakePhase (Game.effectPhase (Game.particlePhase
      (Game.projPhase k x))))).score = x.score ∧
    (Game.cleanupPhase (Game.shakePhase (Game.effectPhase (Game.particlePhase
      (Game.projPhase k x))))).health = x.health ∧
    (Game.cleanupPhase (Game.shakePhase (Game.effectPhase (Game.particlePhase
      (Game.projPhase k x))))).lockedTarget = x.lockedTarget ∧
    (Game.cleanupPhase (Game.shakePhase (Game.effectPhase (Game.particlePhase
      (Game.projPhase k x))))).active = x.active ∧
    (Game.cleanupPhase (Game.shakePhase (Game.effectPhase (Game.particlePhase
      (Game.projPhase k x))))).heap = x.heap ∧
    (Game.cleanupPhase (Game.shakePhase (Game.effectPhase (Game.particlePhase
      (Game.projPhase k x))))).enemies = x.enemies.filter (fun id =>
        match x.heap[id]? with
        | some e => !e.markedForDeletion
        | none => false) := by
  have hsh := shakePhase_frame2 (Game.effectPhase (Game.particlePhase
    (Game.projPhase k x)))
  refine ⟨hsh.1, hsh.2.1, hsh.2.2.1, hsh.2.2.2.1, hsh.2.2.2.2.1, ?_⟩
  show (Game.shakePhase (Game.effectPhase (Game.particlePhase
    (Game.projPhase k x)))).enemies.filter _ = _
  rw [hsh.2.2.2.2.2, hsh.2.2.2.2.1]
  rfl

/-- Exactly what the spawn block does to the heap and the collection:
either nothing, or it appends one fresh enemy at height -100. -/
theorem spawnPhase_cases (seed : SpawnSeed) (s : GState) :
    ((Game.spawnPhase seed s).heap = s.heap ∧
     (Game.spawnPhase seed s).enemies = s.enemies) ∨
    (∃ e2 : Enemy, (Game.spawnPhase seed s).heap = s.heap ++ [e2] ∧
      (Game.spawnPhase seed s).enemies = s.enemies ++ [s.heap.length] ∧
      e2.y = -100 ∧ e2.speed = seed.speedR * (4/5) + 1/2 ∧
      e2.id = s.heap.length) := by
  unfold Game.spawnPhase Game.spawnEnemy
  dsimp only
  split
  · exact Or.inr ⟨_, rfl, rfl, rfl, rfl, rfl⟩
  · exact Or.inl ⟨rfl, rfl⟩

theorem enemyPhase_eq (x : GState) :
    Game.enemyPhase x =
      Game.enemyFold x.height (1 + (x.wave : ℚ) * (1/10)) x.enemies x := rfl

/-- C6: a logic tick advances every enemy's y by `speed * (1 + wave*0.1)`;
an enemy whose new y exceeds the viewport height is marked deleted and
removed from the collection, health drops by exactly 20 per such miss
(clamped at 0, never going negative), the lock is cleared exactly when the
missed enemy was the locked target, the score is unchanged, and if the
misses empty the health bar the game transitions to Ended (inactive).
Hypotheses: non-negative health, well-formed id collection and lock, a
spawn seed whose fresh enemy (height -100) cannot cross the bottom on its
first step. -/
theorem claim_C6 (k : Kern) (seed : SpawnSeed) (s : GState)
    (hh : 0 ≤ s.health)
    (hnd : s.enemies.Nodup)
    (hval : ∀ id ∈ s.enemies, id < s.heap.length)
    (hlockval : ∀ t0, s.lockedTarget = some t0 → t0 < s.heap.length)
    (hnospawn : (seed.speedR * (4/5) + 1/2) * multAfter s ≤ s.height + 100) :
    (Game.logic k seed s).score = s.score ∧
    (Game.logic k seed s).health =
      max 0 (s.health -
        20 * (missCount s.height (multAfter s) s.heap s.enemies : ℤ)) ∧
    0 ≤ (Game.logic k seed s).health ∧
    (∀ id ∈ s.enemies, ∀ e, s.heap[id]? = some e →
      (Game.logic k seed s).heap[id]? = some
        { e with y := e.y + e.speed * multAfter s,
                 rotation := e.rotation + 1/50,
                 pulse := e.pulse + 1/10,
                 markedForDeletion :=
                   if s.height < e.y + e.speed * multAfter s then true
                   else e.markedForDeletion }) ∧
    (∀ id ∈ s.enemies, missB s.height (multAfter s) s.heap id = true →
      id ∉ (Game.logic k seed s).enemies) ∧
    (∀ t0, s.lockedTarget = some t0 →
      (Game.logic k seed s).lockedTarget =
        (if t0 ∈ s.enemies ∧ missB s.height (multAfter s) s.heap t0 = true
         then none else some t0)) ∧
    ((Game.logic k seed s).health = 0 →
      1 ≤ missCount s.height (multAfter s) s.heap s.enemies →
      (Game.logic k seed s).active = false) := by
  obtain ⟨hspw, hsps, hspst, hsph, hspl, hspa, hspm, hspd, hsphgt, hspwd⟩ :=
    spawnPhase_frame seed s
  obtain ⟨hwheap, hwen, hwh, hwl, hwa, hwsc, hwhgt⟩ :=
    wavePhase_frame2 (Game.spawnPhase seed s)
  obtain ⟨hpheap, hpen, hph, hpl, hpa, hpsc, hphgt, hpw⟩ :=
    playerPhase_frame2 k (Game.wavePhase (Game.spawnPhase seed s))
  obtain ⟨htsc, hth, htl, hta, htheap, hten⟩ :=
    tail_frame k (Game.enemyPhase (Game.playerPhase k
      (Game.wavePhase (Game.spawnPhase seed s))))
  have h3hgt : (Game.playerPhase k (Game.wavePhase
      (Game.spawnPhase seed s))).height = s.height := by
    rw [hphgt, hwhgt, hsphgt]
  have h3w : (Game.playerPhase k (Game.wavePhase
      (Game.spawnPhase seed s))).wave = waveAfter s := by
    rw [hpw, wavePhase_wave_eq]
    unfold waveAfter
    rw [hspw, hsps]
  have h3hp : (Game.playerPhase k (Game.wavePhase
      (Game.spawnPhase seed s))).health = s.health := by
    rw [hph, hwh, hsph]
  have h3l : (Game.playerPhase k (Game.wavePhase
      (Game.spawnPhase seed s))).lockedTarget = s.lockedTarget := by
    rw [hpl, hwl, hspl]
  have h3sc : (Game.playerPhase k (Game.wavePhase
      (Game.spawnPhase seed s))).score = s.score := by
    rw [hpsc, hwsc, hsps]
  have h3heap : (Game.playerPhase k (Game.wavePhase
      (Game.spawnPhase seed s))).heap = (Game.spawnPhase seed s).heap := by
    rw [hpheap, hwheap]
  have h3en : (Game.playerPhase k (Game.wavePhase
      (Game.spawnPhase seed s))).enemies = (Game.spawnPhase seed s).enemies := by
    rw [hpen, hwen]
  have h4 : Game.enemyPhase (Game.playerPhase k (Game.wavePhase
      (Game.spawnPhase seed s))) =
      Game.enemyFold s.height (multAfter s)
        (Game.spawnPhase seed s).enemies
        (Game.playerPhase k (Game.wavePhase (Game.spawnPhase seed s))) := by
    rw [enemyPhase_eq, h3hgt, h3w, h3en]
    rfl
  -- facts independent of whether a spawn fired this tick
  have hshape : ((Game.spawnPhase seed s).heap = s.heap ∧
      (Game.spawnPhase seed s).enemies = s.enemies) ∨
      (∃ e2 : Enemy, (Game.spawnPhase seed s).heap = s.heap ++ [e2] ∧
        (Game.spawnPhase seed s).enemies = s.enemies ++ [s.heap.length] ∧
        e2.y = -100 ∧ e2.speed = seed.speedR * (4/5) + 1/2 ∧
        e2.id = s.heap.length) := spawnPhase_cases seed s
  have hagree : ∀ j ∈ s.enemies,
      (Game.playerPhase k (Game.wavePhase (Game.spawnPhase seed s))).heap[j]? =
        s.heap[j]? := by
    intro j hj
    rw [h3heap]
    rcases hshape with ⟨hch, _⟩ | ⟨e2, hch, _, _, _, _⟩
    · rw [hch]
    · rw [hch]
      exact List.getElem?_append_left (hval j hj)
  have hlockagree : ∀ t0, s.lockedTarget = some t0 →
      (Game.playerPhase k (Game.wavePhase (Game.spawnPhase seed s))).heap[t0]? =
        s.heap[t0]? := by
    intro t0 ht0
    rw [h3heap]
    rcases hshape with ⟨hch, _⟩ | ⟨e2, hch, _, _, _, _⟩
    · rw [hch]
    · rw [hch]
      exact List.getElem?_append_left (hlockval t0 ht0)
  have hnd2 : (Game.spawnPhase seed s).enemies.Nodup := by
    rcases hshape with ⟨_, hce⟩ | ⟨e2, _, hce, _, _, _⟩
    · rw [hce]
      exact hnd
    · rw [hce]
      refine List.nodup_append.mpr ⟨hnd, List.nodup_singleton _, ?_⟩
      intro x hx hx2
      have h1 := hval x hx
      have h2 : x = s.heap.length := by simpa using hx2
      omega
  have hmem2 : ∀ id ∈ s.enemies, id ∈ (Game.spawnPhase seed s).enemies := by
    intro id hid
    rcases hshape with ⟨_, hce⟩ | ⟨e2, _, hce, _, _, _⟩
    · rw [hce]
      exact hid
    · rw [hce]
      exact List.mem_append_left _ hid
  have hcount : missCount s.height (multAfter s)
      (Game.playerPhase k (Game.wavePhase (Game.spawnPhase seed s))).heap
      (Game.spawnPhase seed s).enemies =
      missCount s.height (multAfter s) s.heap s.enemies := by
    rcases hshape with ⟨hch, hce⟩ | ⟨e2, hch, hce, hy2, hv2, _⟩
    · rw [hce]
      exact missCount_congr _ _ _ _ _ hagree
    · rw [hce, missCount_append]
      have hq : missCount s.height (multAfter s)
          (Game.playerPhase k (Game.wavePhase
            (Game.spawnPhase seed s))).heap s.enemies =
          missCount s.height (multAfter s) s.heap s.enemies :=
        missCount_congr _ _ _ _ _ hagree
      have hnew : missB s.height (multAfter s)
          (Game.playerPhase k (Game.wavePhase
            (Game.spawnPhase seed s))).heap s.heap.length = false := by
        have hlook : (Game.playerPhase k (Game.wavePhase
            (Game.spawnPhase seed s))).heap[s.heap.length]? = some e2 := by
          rw [h3heap, hch]
          exact List.getElem?_concat_length s.heap e2
        rw [missB_some _ _ _ _ _ hlook, hy2, hv2]
        have : ¬ s.height < -100 + (seed.speedR * (4/5) + 1/2) * multAfter s := by
          intro hcon
          nlinarith [hnospawn]
        exact decide_eq_false this
      rw [show missCount s.height (multAfter s)
          (Game.playerPhase k (Game.wavePhase
            (Game.spawnPhase seed s))).heap [s.heap.length] =
          0 from by rw [missCount_cons, hnew]; rfl]
      rw [hq, Nat.add_zero]
  -- core facts about the enemy pass
  have H4health : (Game.enemyPhase (Game.playerPhase k (Game.wavePhase
      (Game.spawnPhase seed s)))).health =
      max 0 (s.health -
        20 * (missCount s.height (multAfter s) s.heap s.enemies : ℤ)) := by
    rw [h4, enemyFold_health _ _ _ _ hnd2 (by rw [h3hp]; exact hh), h3hp, hcount]
  have H4heapmem : ∀ id ∈ s.enemies, ∀ e, s.heap[id]? = some e →
      (Game.enemyPhase (Game.playerPhase k (Game.wavePhase
        (Game.spawnPhase seed s)))).heap[id]? =
        some (Enemy.update s.height (multAfter s) e).1 := by
    intro id hid e he
    rw [h4]
    exact enemyFold_heap_mem _ _ _ _ hnd2 id (hmem2 id hid) e
      (by rw [hagree id hid]; exact he)
  have H4lock : ∀ t0, s.lockedTarget = some t0 →
      (Game.enemyPhase (Game.playerPhase k (Game.wavePhase
        (Game.spawnPhase seed s)))).lockedTarget =
        (if t0 ∈ s.enemies ∧ missB s.height (multAfter s) s.heap t0 = true
         then none else some t0) := by
    intro t0 ht0
    rw [h4, enemyFold_lock_some _ _ _ _ t0 hnd2 (by rw [h3l]; exact ht0)]
    have hmbeq : missB s.height (multAfter s)
        (Game.playerPhase k (Game.wavePhase
          (Game.spawnPhase seed s))).heap t0 =
        missB s.height (multAfter s) s.heap t0 := by
      unfold missB
      rw [hlockagree t0 ht0]
    rw [hmbeq]
    refine if_congr ?_ rfl rfl
    constructor
    · rintro ⟨h1, h2⟩
      refine ⟨?_, h2⟩
      rcases hshape with ⟨_, hce⟩ | ⟨e2, _, hce, _, _, _⟩
      · rw [hce] at h1
        exact h1
      · rw [hce] at h1
        rcases List.mem_append.mp h1 with h3 | h3
        · exact h3
        · have h5 := hlockval t0 ht0
          have h6 : t0 = s.heap.length := by simpa using h3
          omega
    · rintro ⟨h1, h2⟩
      exact ⟨hmem2 t0 h1, h2⟩
  have H4en : (Game.enemyPhase (Game.playerPhase k (Game.wavePhase
      (Game.spawnPhase seed s)))).enemies =
      (Game.spawnPhase seed s).enemies := by
    rw [h4]
    unfold Game.enemyFold
    rw [foldl_fix GState.enemies _
      (fun s2 i => (enemyStep_frame s.height (multAfter s) s2 i).2.2.2.1)]
    exact h3en
  have H4dead : (Game.enemyPhase (Game.playerPhase k (Game.wavePhase
      (Game.spawnPhase seed s)))).health = 0 →
      1 ≤ missCount s.height (multAfter s) s.heap s.enemies →
      (Game.enemyPhase (Game.playerPhase k (Game.wavePhase
        (Game.spawnPhase seed s)))).active = false := by
    intro hz hk
    rw [h4] at hz ⊢
    exact enemyFold_dead _ _ _ _ hnd2 (by rw [h3hp]; exact hh) hz
      (by rw [hcount]; exact hk)
  refine ⟨?_, ?_, ?_, ?_, ?_, ?_, ?_⟩
  · rw [Game.logic, htsc, h4, enemyFold_score, h3sc]
  · rw [Game.logic, hth, H4health]
  · rw [Game.logic, hth, H4health]
    exact le_max_left 0 _
  · intro id hid e he
    rw [Game.logic, htheap, H4heapmem id hid e he, Enemy.update_fst]
  · intro id hid hmiss
    rw [Game.logic, hten]
    intro hcon
    have h1 := (List.mem_filter.mp hcon).2
    rcases hlook : s.heap[id]? with _ | e
    · rw [missB_none _ _ _ _ hlook] at hmiss
      exact Bool.false_ne_true hmiss
    · rw [H4heapmem id hid e hlook, Enemy.update_fst] at h1
      rw [missB_some _ _ _ _ _ hlook] at hmiss
      have hcr := of_decide_eq_true hmiss
      rw [if_pos hcr] at h1
      simp at h1
  · intro t0 ht0
    rw [Game.logic, htl, H4lock t0 ht0]
  · intro hz hk
    rw [Game.logic, hth] at hz
    rw [Game.logic, hta]
    exact H4dead hz hk

/-- Witness for C6: on the concrete two-enemy state, the tick marks and
removes the crossing locked enemy, costs 20 health, clears the lock, keeps
the score and leaves the surviving enemy advanced by exactly
`speed * (1 + wave*0.1)`. -/
theorem claim_C6_w :
    (Game.logic kDummy seedCODE missState).score = missState.score ∧
    (Game.logic kDummy seedCODE missState).health =
      max 0 (missState.health - 20 * (missCount missState.height
        (multAfter missState) missState.heap missState.enemies : ℤ)) ∧
    0 ≤ (Game.logic kDummy seedCODE missState).health ∧
    (∀ id ∈ missState.enemies, ∀ e, missState.heap[id]? = some e →
      (Game.logic kDummy seedCODE missState).heap[id]? = some
        { e with y := e.y + e.speed * multAfter missState,
                 rotation := e.rotation + 1/50,
                 pulse := e.pulse + 1/10,
                 markedForDeletion :=
                   if missState.height < e.y + e.speed * multAfter missState
                   then true else e.markedForDeletion }) ∧
    (∀ id ∈ missState.enemies,
      missB missState.height (multAfter missState) missState.heap id = true →
      id ∉ (Game.logic kDummy seedCODE missState).enemies) ∧
    (∀ t0, missState.lockedTarget = some t0 →
      (Game.logic kDummy seedCODE missState).lockedTarget =
        (if t0 ∈ missState.enemies ∧ missB missState.height
            (multAfter missState) missState.heap t0 = true
         then none else some t0)) ∧
    ((Game.logic kDummy seedCODE missState).health = 0 →
      1 ≤ missCount missState.height (multAfter missState)
        missState.heap missState.enemies →
      (Game.logic kDummy seedCODE missState).active = false) :=
  claim_C6 kDummy seedCODE missState (by decide) (by decide) (by decide)
    (by
      intro t0 ht0
      rw [show missState.lockedTarget = some 0 from rfl] at ht0
      rw [← Option.some.inj ht0]
      decide)
    (by norm_num [seedCODE, multAfter, waveAfter, missState, fresh,
      Game.start, initState])

theorem runActs_append (k : Kern) (s : GState) (l1 l2 : List Act) :
    runActs k s (l1 ++ l2) = runActs k (runActs k s l1) l2 := by
  unfold runActs
  rw [List.foldl_append]

theorem actsOK_append (k : Kern) (l1 : List Act) :
    ∀ (s : GState) (l2 : List Act),
      actsOK k s (l1 ++ l2) = (actsOK k s l1 && actsOK k (runActs k s l1) l2) := by
  induction l1 with
  | nil =>
    intro s l2
    rw [List.nil_append, show actsOK k s [] = true from rfl, Bool.true_and]
    rfl
  | cons a t ih =>
    intro s l2
    rw [List.cons_append]
    show (_ && actsOK k (applyAct k s a) (t ++ l2)) = _
    rw [ih (applyAct k s a) l2, ← Bool.and_assoc]
    rfl

theorem cleanupPhase_diff (s : GState) :
    (Game.cleanupPhase s).currentDifficulty = s.currentDifficulty := rfl

theorem shakePhase_diff (s : GState) :
    (Game.shakePhase s).currentDifficulty = s.currentDifficulty := by
  unfold Game.shakePhase
  split <;> rfl

theorem effectPhase_diff (s : GState) :
    (Game.effectPhase s).currentDifficulty = s.currentDifficulty := rfl

theorem particlePhase_diff (s : GState) :
    (Game.particlePhase s).currentDifficulty = s.currentDifficulty := rfl

theorem projPhase_diff (k : Kern) (s : GState) :
    (Game.projPhase k s).currentDifficulty = s.currentDifficulty := rfl

theorem playerPhase_diff (k : Kern) (s : GState) :
    (Game.playerPhase k s).currentDifficulty = s.currentDifficulty := rfl

theorem enemyPhase_diff (s : GState) :
    (Game.enemyPhase s).currentDifficulty = s.currentDifficulty := by
  unfold Game.enemyPhase
  exact enemyFold_diff _ _ _ _

theorem wavePhase_diff (s : GState) :
    (Game.wavePhase s).currentDifficulty = s.currentDifficulty := by
  unfold Game.wavePhase
  split <;> rfl

/-- A tick never changes the selected difficulty. -/
theorem logic_diff (k : Kern) (seed : SpawnSeed) (s : GState) :
    (Game.logic k seed s).currentDifficulty = s.currentDifficulty := by
  rw [Game.logic, cleanupPhase_diff, shakePhase_diff, effectPhase_diff,
    particlePhase_diff, projPhase_diff, enemyPhase_diff, playerPhase_diff,
    wavePhase_diff]
  exact (spawnPhase_frame seed s).2.2.2.2.2.2.2.1

unseal Rat.add Rat.mul Rat.inv Rat.sub in
theorem seedCODE_ok_easy (s : GState) (hd : s.currentDifficulty = Diff.easy) :
    seedOK s seedCODE = true := by
  unfold seedOK
  rw [hd]
  decide

/-- Any number of "CODE"-seeded ticks is a valid event sequence from an
easy-difficulty state. -/
theorem ticksOK (n : ℕ) : ∀ (s : GState), s.currentDifficulty = Diff.easy →
    actsOK kDummy s (List.replicate n (Act.tick seedCODE)) = true := by
  induction n with
  | zero => intro s _; rfl
  | succ n ih =>
    intro s hd
    rw [List.replicate_succ]
    show (seedOK s seedCODE && _) = true
    rw [Bool.and_eq_true]
    refine ⟨seedCODE_ok_easy s hd, ih _ ?_⟩
    rw [show applyAct kDummy s (Act.tick seedCODE) =
      Game.logic kDummy seedCODE s from rfl, logic_diff]
    exact hd

/-- Keystrokes carry no validity side conditions. -/
theorem actsOK_typeCODE (s : GState) : actsOK kDummy s typeCODE = true := rfl

/-- Neither does the final re-lock keystroke. -/
theorem actsOK_lastC (s : GState) :
    actsOK kDummy s [Act.key rnd0 'C'] = true := rfl

unseal Rat.add Rat.mul Rat.inv Rat.sub in
theorem chunkA1 : runActs kDummy fresh
    (List.replicate 30 (Act.tick seedCODE)) = { fresh with spawnTimer := 30 } := by
  set_option maxRecDepth 4000 in decide

unseal Rat.add Rat.mul Rat.inv Rat.sub in
theorem chunkA2 : runActs kDummy { fresh with spawnTimer := 30 }
    (List.replicate 30 (Act.tick seedCODE)) = { fresh with spawnTimer := 60 } := by
  set_option maxRecDepth 4000 in decide

unseal Rat.add Rat.mul Rat.inv Rat.sub in
theorem chunkA3 : runActs kDummy { fresh with spawnTimer := 60 }
    (List.replicate 30 (Act.tick seedCODE)) = { fresh with spawnTimer := 90 } := by
  set_option maxRecDepth 4000 in decide

unseal Rat.add Rat.mul Rat.inv Rat.sub in
theorem chunkA4 : runActs kDummy { fresh with spawnTimer := 90 }
    (List.replicate 25 (Act.tick seedCODE)) = fresh115 := by
  set_option maxRecDepth 4000 in decide

unseal Rat.add Rat.mul Rat.inv Rat.sub in
theorem chunkB : runActs kDummy fresh115
    (List.replicate 1 (Act.tick seedCODE)) = sAfter 0 := by
  set_option maxRecDepth 4000 in decide

unseal Rat.add Rat.mul Rat.inv Rat.sub in
theorem chunkC1 : runActs kDummy (sAfter 0)
    (List.replicate 30 (Act.tick seedCODE)) = sAfter 30 := by
  set_option maxRecDepth 4000 in decide

unseal Rat.add Rat.mul Rat.inv Rat.sub in
theorem chunkC2 : runActs kDummy (sAfter 30)
    (List.replicate 30 (Act.tick seedCODE)) = sAfter 60 := by
  set_option maxRecDepth 4000 in decide

unseal Rat.add Rat.mul Rat.inv Rat.sub in
theorem chunkC3 : runActs kDummy (sAfter 60)
    (List.replicate 30 (Act.tick seedCODE)) = sAfter 90 := by
  set_option maxRecDepth 4000 in decide

/-- The state reached by `bugTrace` is the 90-tick descendant state with
the five keystrokes applied. -/
theorem badS_eq : badS = runActs kDummy (sAfter 90)
    (typeCODE ++ [Act.key rnd0 'C']) := by
  unfold badS bugTrace
  rw [show (206 : ℕ) = 30 + (30 + (30 + (25 + (1 + (30 + (30 + 30)))))) from rfl]
  rw [List.replicate_add, List.replicate_add, List.replicate_add,
    List.replicate_add, List.replicate_add, List.replicate_add,
    List.replicate_add]
  rw [runActs_append, runActs_append, runActs_append, runActs_append,
    runActs_append, runActs_append, runActs_append, runActs_append,
    runActs_append]
  rw [chunkA1, chunkA2, chunkA3, chunkA4, chunkB, chunkC1, chunkC2, chunkC3]
  rw [← runActs_append]

/-- `bugTrace` is a valid event sequence from the freshly started game. -/
theorem bugTrace_ok : actsOK kDummy fresh bugTrace = true := by
  unfold bugTrace
  rw [actsOK_append, actsOK_append, Bool.and_eq_true, Bool.and_eq_true]
  exact ⟨⟨ticksOK 206 fresh rfl, actsOK_typeCODE _⟩, actsOK_lastC _⟩

/-- The state reached by `bugTrace` is reachable. -/
theorem badS_reachable : Reachable kDummy 800 600 0 badS :=
  ⟨bugTrace, bugTrace_ok, rfl⟩

unseal Rat.add Rat.mul Rat.inv Rat.sub in
theorem badS_lock_facts : badS.lockedTarget = some 0 ∧ 0 ∈ badS.enemies ∧
    (badS.heap[0]?).map Enemy.markedForDeletion = some true ∧
    (badS.heap[0]?).map Enemy.isLocked = some true := by
  rw [badS_eq]
  set_option maxRecDepth 4000 in decide

unseal Rat.add Rat.mul Rat.inv Rat.sub in
theorem badS_match_facts : (¬ ∀ e ∈ badS.heap,
      e.matchedIndex ≤ e.word.length) ∧ 0 ∈ badS.enemies ∧
    (badS.heap[0]?).map Enemy.matchedIndex = some 5 ∧
    (badS.heap[0]?).map (fun e => e.word.length) = some 4 := by
  rw [badS_eq]
  set_option maxRecDepth 4000 in decide

/-- C2: the lock-liveness invariant fails. A reachable state (spawn "CODE"
on an easy game, let it descend on screen, type C-O-D-E destroying it, then
type C again before the next tick) has `lockedTarget` set to an enemy that
is marked for deletion and still in the collection: `handleInput`'s
candidate filter never tests `markedForDeletion`, so a destroyed enemy can
be re-locked before the cleanup pass removes it. -/
theorem claim_C2_bug : Reachable kDummy 800 600 0 badS ∧
    badS.lockedTarget = some 0 ∧ 0 ∈ badS.enemies ∧
    (badS.heap[0]?).map Enemy.markedForDeletion = some true ∧
    (badS.heap[0]?).map Enemy.isLocked = some true :=
  ⟨badS_reachable, badS_lock_facts⟩

/-- C4: the bound `matchedIndex ≤ word.length` fails at a reachable state.
Re-locking the just-destroyed "CODE" enemy (candidate filter ignores the
deletion mark) increments its `matchedIndex` a fifth time, to 5, while
`word.length` is 4. -/
theorem claim_C4_bug : Reachable kDummy 800 600 0 badS ∧
    (¬ ∀ e ∈ badS.heap, e.matchedIndex ≤ e.word.length) ∧ 0 ∈ badS.enemies ∧
    (badS.heap[0]?).map Enemy.matchedIndex = some 5 ∧
    (badS.heap[0]?).map (fun e => e.word.length) = some 4 :=
  ⟨badS_reachable, badS_match_facts⟩

end Neon
